import Mathlib

/-!
Verification of the URL-resolution and enrichment-cache pipeline of the
letterbddy (letterboxd-wrappd) repository.  The Python sources
`scripts/scrape_tmdb_ids.py`, `scripts/enrich_critics_list.py` and
`scripts/enrich_curated_lists.py` are shallowly embedded: JSON values are
`JVal`, Python dicts are insertion-ordered association lists, URLs are
`List Char`, network calls are oracles passed as explicit parameters, and
exceptions raised by a primitive are `Except`/`Option` failures.
-/

namespace Letterbddy

/-- JSON values as decoded by Python `json.loads`. -/
inductive JVal where
  | jnull
  | jbool (b : Bool)
  | jnum (n : Int)
  | jstr (s : String)
  | jarr (xs : List JVal)
  | jobj (fields : List (String × JVal))

/-- A decoded JSON object / Python dict: an insertion-ordered association list
(`json.loads` keeps the last binding of a duplicate key, so the lists we build
always have distinct keys). -/
abbrev Jobj := List (String × JVal)

/-- Python `d.get(k)` (`None` when absent) on a dict. -/
def objGet (fs : Jobj) (k : String) : Option JVal :=
  List.lookup k fs

/-- Python `d.get(k, dflt)` on a dict. -/
def objGetD (fs : Jobj) (k : String) (dflt : JVal) : JVal :=
  (objGet fs k).getD dflt

/-- Python `k in d` on a dict. -/
def objHas (fs : Jobj) (k : String) : Bool :=
  (objGet fs k).isSome

/-- Python `d[k] = v` on a dict: replace in place, else append. -/
def objSet : Jobj → String → JVal → Jobj
  | [], k, v => [(k, v)]
  | (k0, v0) :: rest, k, v =>
      if k0 = k then (k, v) :: rest else (k0, v0) :: objSet rest k v

/-- Python `d.setdefault(k, v)`: leave any existing binding (even a non-dict
value) untouched, otherwise append the default. -/
def objSetdefault (fs : Jobj) (k : String) (v : JVal) : Jobj :=
  if objHas fs k then fs else fs ++ [(k, v)]

/-- Python truthiness of a decoded JSON value. -/
def truthy : JVal → Bool
  | .jnull => false
  | .jbool b => b
  | .jnum n => n != 0
  | .jstr s => s != ""
  | .jarr xs => !xs.isEmpty
  | .jobj fs => !fs.isEmpty

/-- Is the value a JSON object (a Python dict)? -/
def isObjJ : JVal → Bool
  | .jobj _ => true
  | _ => false

/-!  ## URL strings

URL-shaped strings are modelled as `List Char` so that the regular-expression
matching done by the scripts can be embedded as explicit character scans with
the same backtracking behaviour as Python `re`.
-/

/-- Python `str.strip()` character class (whitespace). -/
def isPySpace (c : Char) : Bool :=
  c.isWhitespace

/-- Python `s.strip()`. -/
def stripChars (cs : List Char) : List Char :=
  ((cs.dropWhile isPySpace).reverse.dropWhile isPySpace).reverse

/-- Python `s.split("#", 1)[0]`: everything before the first `#`. -/
def dropFragment (cs : List Char) : List Char :=
  cs.takeWhile (fun c => c ≠ '#')

/-- Match a literal character sequence, returning the rest of the input. -/
def matchLit : List Char → List Char → Option (List Char)
  | [], cs => some cs
  | _ :: _, [] => none
  | p :: ps, c :: cs => if c = p then matchLit ps cs else none

/-- Match `[^/]+/`: a maximal nonempty run of non-slash characters followed by
a slash (Python's greedy run cannot backtrack to a shorter run here, because a
shorter run would have to be followed by a non-slash character). -/
def takeSeg (cs : List Char) : Option (List Char × List Char) :=
  match cs.takeWhile (fun c => c ≠ '/'), cs.dropWhile (fun c => c ≠ '/') with
  | [], _ => none
  | _, [] => none
  | seg, _ :: rest => some (seg, rest)

/-- Match `film/([^/]+)/` and return the captured slug. -/
def matchFilmTail (cs : List Char) : Option (List Char) :=
  match matchLit "film/".data cs with
  | none => none
  | some rest =>
      match takeSeg rest with
      | none => none
      | some (slug, _) => some slug

/-- Match `(?:[^/]+/)?film/([^/]+)/` with Python's backtracking order: the
optional user segment is tried first, and dropped when the remainder of the
pattern fails after it. -/
def matchAfterHost (cs : List Char) : Option (List Char) :=
  match takeSeg cs with
  | some (_, rest) =>
      match matchFilmTail rest with
      | some slug => some slug
      | none => matchFilmTail cs
  | none => matchFilmTail cs

/-- Match `https?://letterboxd\.com/` at the start of the input.  `https?`
consumes the `s` exactly when the next character is `s`; when it is, the
alternative without `s` would fail on the following `:` anyway. -/
def matchScheme (cs : List Char) : Option (List Char) :=
  match matchLit "http".data cs with
  | none => none
  | some rest =>
      let rest1 := match rest with
        | 's' :: t => t
        | _ => rest
      matchLit "://letterboxd.com/".data rest1

/-- One anchored attempt of the film-URL regular expression of
`scrape_tmdb_ids.py` (`https?://letterboxd\.com/(?:[^/]+/)?film/([^/]+)/`). -/
def matchFilmAt (cs : List Char) : Option (List Char) :=
  match matchScheme cs with
  | none => none
  | some rest => matchAfterHost rest

/-- Python `re.search` for the film-URL pattern: leftmost match wins. -/
def searchFilm : List Char → Option (List Char)
  | [] => none
  | c :: rest =>
      match matchFilmAt (c :: rest) with
      | some slug => some slug
      | none => searchFilm rest

/-- `normalize_letterboxd_url` from `scrape_tmdb_ids.py`: strip surrounding
whitespace, drop the URL fragment, guarantee a trailing slash. -/
def normalize_letterboxd_url (cs : List Char) : List Char :=
  let cs := stripChars cs
  if cs = [] then cs
  else
    let cs := dropFragment cs
    if cs.getLast? = some '/' then cs else cs ++ ['/']

/-- `canonicalize_letterboxd_film_url` from `scrape_tmdb_ids.py`: normalize,
then rebuild the first regex match as `https://letterboxd.com/film/<slug>/`,
or return the empty string when there is no match. -/
def canonicalize_letterboxd_film_url (url : List Char) : List Char :=
  let url := normalize_letterboxd_url url
  match searchFilm url with
  | none => []
  | some slug => "https://letterboxd.com/film/".data ++ slug ++ ['/']

example :
    canonicalize_letterboxd_film_url "https://letterboxd.com/katswnt/film/22-jump-street/".data
      = "https://letterboxd.com/film/22-jump-street/".data := by decide

example :
    canonicalize_letterboxd_film_url "https://letterboxd.com/film/parasite-2019".data
      = "https://letterboxd.com/film/parasite-2019/".data := by decide

example :
    canonicalize_letterboxd_film_url " https://letterboxd.com/film/parasite-2019/#reviews".data
      = "https://letterboxd.com/film/parasite-2019/".data := by decide

example :
    canonicalize_letterboxd_film_url "https://letterboxd.com/film/parasite-2019/?x=1".data
      = "https://letterboxd.com/film/parasite-2019/".data := by decide

example :
    canonicalize_letterboxd_film_url "https://letterboxd.com/film/parasite-2019?x=1".data
      = "https://letterboxd.com/film/parasite-2019?x=1/".data := by decide

example :
    canonicalize_letterboxd_film_url "https://letterboxd.com/film/film/".data
      = "https://letterboxd.com/film/film/".data := by decide

example : canonicalize_letterboxd_film_url "https://boxd.it/abc".data = [] := by decide

/-!  ## Persistent cache store -/

/-- `CACHE_VERSION` in both `scrape_tmdb_ids.py` and `enrich_critics_list.py`. -/
def CACHE_VERSION : Int := 1

/-- Python `data.get("version") == CACHE_VERSION` (in Python `True == 1`). -/
def isVersionOne : Option JVal → Bool
  | some (.jnum n) => n == CACHE_VERSION
  | some (.jbool b) => b
  | _ => false

/-- The observable states of the on-disk cache file: absent, unreadable
(read error or `json.loads` failure — both land in the `except` branch), or a
successfully parsed JSON document. -/
inductive FileState where
  | missing
  | unreadable
  | content (j : JVal)

/-- The empty versioned store built inline by `load_cache` in
`scrape_tmdb_ids.py`. -/
def emptyCacheScrape : Jobj :=
  [("version", .jnum CACHE_VERSION),
   ("shortlink_to_film", .jobj []),
   ("film_to_tmdb", .jobj []),
   ("list_cache", .jobj []),
   ("tmdb_movie_data", .jobj [])]

/-- `load_cache` from `scrape_tmdb_ids.py`. -/
def load_cache : FileState → Jobj
  | .missing => emptyCacheScrape
  | .unreadable => emptyCacheScrape
  | .content (.jobj fs) =>
      if isVersionOne (objGet fs "version") then
        let fs := objSetdefault fs "shortlink_to_film" (.jobj [])
        let fs := objSetdefault fs "film_to_tmdb" (.jobj [])
        let fs := objSetdefault fs "list_cache" (.jobj [])
        objSetdefault fs "tmdb_movie_data" (.jobj [])
      else emptyCacheScrape
  | .content _ => emptyCacheScrape

/-- `_empty_cache` from `enrich_critics_list.py` (no `list_cache` namespace). -/
def emptyCacheCritics : Jobj :=
  [("version", .jnum CACHE_VERSION),
   ("shortlink_to_film", .jobj []),
   ("film_to_tmdb", .jobj []),
   ("tmdb_movie_data", .jobj [])]

/-- `load_cache` from `enrich_critics_list.py`. -/
def load_cache_critics : FileState → Jobj
  | .missing => emptyCacheCritics
  | .unreadable => emptyCacheCritics
  | .content (.jobj fs) =>
      if isVersionOne (objGet fs "version") then
        let fs := objSetdefault fs "shortlink_to_film" (.jobj [])
        let fs := objSetdefault fs "film_to_tmdb" (.jobj [])
        objSetdefault fs "tmdb_movie_data" (.jobj [])
      else emptyCacheCritics
  | .content _ => emptyCacheCritics

theorem objGet_nil (k : String) : objGet [] k = none := rfl

theorem objGet_cons (k0 : String) (v0 : JVal) (rest : Jobj) (k : String) :
    objGet ((k0, v0) :: rest) k = if k0 = k then some v0 else objGet rest k := by
  simp only [objGet, List.lookup]
  by_cases h : k0 = k
  · subst h; simp
  · have : (k == k0) = false := by
      simp [beq_iff_eq]
      exact fun e => h e.symm
    simp [h, this]

theorem objGet_append (fs gs : Jobj) (k : String) :
    objGet (fs ++ gs) k = ((objGet fs k).or (objGet gs k)) := by
  induction fs with
  | nil => simp [objGet_nil, objGet]
  | cons hd tl ih =>
      obtain ⟨k0, v0⟩ := hd
      rw [List.cons_append, objGet_cons, objGet_cons]
      by_cases h : k0 = k
      · simp [h]
      · simp [h, ih]

/-- `setdefault` guarantees the key is bound afterwards, with the old value if
there was one and the default otherwise. -/
theorem objGet_objSetdefault_self (fs : Jobj) (k : String) (v : JVal) :
    objGet (objSetdefault fs k v) k = some ((objGet fs k).getD v) := by
  unfold objSetdefault objHas
  cases h : objGet fs k with
  | some w => simp [h]
  | none => simp [h, objGet_append, objGet_cons, objGet_nil]

/-- `setdefault` on one key does not change any other key. -/
theorem objGet_objSetdefault_other (fs : Jobj) (k k1 : String) (v : JVal)
    (hne : k1 ≠ k) :
    objGet (objSetdefault fs k v) k1 = objGet fs k1 := by
  unfold objSetdefault
  by_cases h : objHas fs k
  · simp [h]
  · simp only [h, if_neg, Bool.false_eq_true, not_false_iff, if_false]
    rw [objGet_append]
    cases hg : objGet fs k1 with
    | some w => simp
    | none =>
        simp only [Option.none_or]
        rw [objGet_cons]
        have hne2 : ¬ k = k1 := fun e => hne e.symm
        simp [hne2, objGet_nil]

/-- In the pass-through branch, `load_cache` is the four `setdefault` calls. -/
theorem load_cache_pass (fs : Jobj)
    (h : isVersionOne (objGet fs "version") = true) :
    load_cache (.content (.jobj fs)) =
      objSetdefault (objSetdefault (objSetdefault (objSetdefault fs
        "shortlink_to_film" (.jobj [])) "film_to_tmdb" (.jobj []))
        "list_cache" (.jobj [])) "tmdb_movie_data" (.jobj []) := by
  simp [load_cache, h]

/-- In the pass-through branch, `load_cache_critics` is the three
`setdefault` calls. -/
theorem load_cache_critics_pass (fs : Jobj)
    (h : isVersionOne (objGet fs "version") = true) :
    load_cache_critics (.content (.jobj fs)) =
      objSetdefault (objSetdefault (objSetdefault fs
        "shortlink_to_film" (.jobj [])) "film_to_tmdb" (.jobj []))
        "tmdb_movie_data" (.jobj []) := by
  simp [load_cache_critics, h]

/-- C6: loading a cache file with a `version` field different from the
expected constant yields exactly the same cache store as a missing file, and
so does an unreadable/corrupt file or a non-dict document — the load never
fails the run (the embedded loaders are total functions).  Holds for both
`scrape_tmdb_ids.py` and `enrich_critics_list.py`. -/
theorem c6_cache_load_resets_to_empty :
    (∀ fs : Jobj, isVersionOne (objGet fs "version") = false →
        load_cache (.content (.jobj fs)) = load_cache .missing) ∧
    (∀ j : JVal, isObjJ j = false → load_cache (.content j) = load_cache .missing) ∧
    load_cache .unreadable = load_cache .missing ∧
    (∀ fs : Jobj, isVersionOne (objGet fs "version") = false →
        load_cache_critics (.content (.jobj fs)) = load_cache_critics .missing) ∧
    (∀ j : JVal, isObjJ j = false →
        load_cache_critics (.content j) = load_cache_critics .missing) ∧
    load_cache_critics .unreadable = load_cache_critics .missing := by
  refine ⟨?_, ?_, rfl, ?_, ?_, rfl⟩
  · intro fs h
    simp [load_cache, h]
  · intro j h
    cases j <;> simp_all [isObjJ, load_cache]
  · intro fs h
    simp [load_cache_critics, h]
  · intro j h
    cases j <;> simp_all [isObjJ, load_cache_critics]

/-- Witness for C6 at concrete inputs: a version-2 file, a non-dict file and
a version-0 file all load as the empty store. -/
theorem c6_cache_load_resets_to_empty_witness :
    load_cache (.content (.jobj [("version", .jnum 2)])) = load_cache .missing ∧
    load_cache (.content (.jarr [])) = load_cache .missing ∧
    load_cache_critics (.content (.jobj [("version", .jnum 0)]))
      = load_cache_critics .missing :=
  ⟨c6_cache_load_resets_to_empty.1 [("version", .jnum 2)] rfl,
   c6_cache_load_resets_to_empty.2.1 (.jarr []) rfl,
   c6_cache_load_resets_to_empty.2.2.2.1 [("version", .jnum 0)] rfl⟩

/-- C10 as stated is false: a valid version-1 cache file that binds a
namespace key to a non-dict value keeps that value, so the loaded store does
not hold all namespaces as dictionaries. -/
theorem c10_counterexample_nondict_namespace_kept :
    objGet (load_cache (.content (.jobj
        [("version", .jnum 1), ("film_to_tmdb", .jnull)]))) "film_to_tmdb"
      = some .jnull ∧ isObjJ .jnull = false :=
  ⟨rfl, rfl⟩

/-- C10 amended: `load_cache` (both scripts) is total and its result always
satisfies the Python comparison `version == CACHE_VERSION` and binds every
expected namespace key; each namespace is a dictionary unless the on-disk
file was already a valid version-1 object binding that key to a non-dict
value, in which case that value is preserved as-is. -/
theorem c10_amended_load_cache_shape :
    ∀ st : FileState,
      isVersionOne (objGet (load_cache st) "version") = true ∧
      isVersionOne (objGet (load_cache_critics st) "version") = true ∧
      (∀ k, k ∈ ["shortlink_to_film", "film_to_tmdb", "list_cache",
                 "tmdb_movie_data"] →
        ∃ v, objGet (load_cache st) k = some v ∧
          (isObjJ v = true ∨
            ∃ fs, st = .content (.jobj fs) ∧
              isVersionOne (objGet fs "version") = true ∧
              objGet fs k = some v)) ∧
      (∀ k, k ∈ ["shortlink_to_film", "film_to_tmdb", "tmdb_movie_data"] →
        ∃ v, objGet (load_cache_critics st) k = some v ∧
          (isObjJ v = true ∨
            ∃ fs, st = .content (.jobj fs) ∧
              isVersionOne (objGet fs "version") = true ∧
              objGet fs k = some v)) := by
  have emptyS : ∀ P : String → JVal → Prop,
      ∀ k, k ∈ ["shortlink_to_film", "film_to_tmdb", "list_cache",
                "tmdb_movie_data"] →
        ∃ v, objGet emptyCacheScrape k = some v ∧ (isObjJ v = true ∨ P k v) := by
    intro P k hk
    simp only [List.mem_cons, List.not_mem_nil, or_false] at hk
    rcases hk with rfl | rfl | rfl | rfl <;> exact ⟨.jobj [], rfl, Or.inl rfl⟩
  have emptyC : ∀ P : String → JVal → Prop,
      ∀ k, k ∈ ["shortlink_to_film", "film_to_tmdb", "tmdb_movie_data"] →
        ∃ v, objGet emptyCacheCritics k = some v ∧ (isObjJ v = true ∨ P k v) := by
    intro P k hk
    simp only [List.mem_cons, List.not_mem_nil, or_false] at hk
    rcases hk with rfl | rfl | rfl <;> exact ⟨.jobj [], rfl, Or.inl rfl⟩
  intro st
  cases st with
  | missing => exact ⟨rfl, rfl, emptyS _, emptyC _⟩
  | unreadable => exact ⟨rfl, rfl, emptyS _, emptyC _⟩
  | content j =>
    cases j with
    | jnull => exact ⟨rfl, rfl, emptyS _, emptyC _⟩
    | jbool b => exact ⟨rfl, rfl, emptyS _, emptyC _⟩
    | jnum n => exact ⟨rfl, rfl, emptyS _, emptyC _⟩
    | jstr s => exact ⟨rfl, rfl, emptyS _, emptyC _⟩
    | jarr xs => exact ⟨rfl, rfl, emptyS _, emptyC _⟩
    | jobj fs =>
      by_cases h : isVersionOne (objGet fs "version") = true
      · refine ⟨?_, ?_, ?_, ?_⟩
        · rw [load_cache_pass fs h,
            objGet_objSetdefault_other _ _ _ _ (by decide),
            objGet_objSetdefault_other _ _ _ _ (by decide),
            objGet_objSetdefault_other _ _ _ _ (by decide),
            objGet_objSetdefault_other _ _ _ _ (by decide)]
          exact h
        · rw [load_cache_critics_pass fs h,
            objGet_objSetdefault_other _ _ _ _ (by decide),
            objGet_objSetdefault_other _ _ _ _ (by decide),
            objGet_objSetdefault_other _ _ _ _ (by decide)]
          exact h
        · intro k hk
          simp only [List.mem_cons, List.not_mem_nil, or_false] at hk
          have finish : ∀ w : Option JVal,
              objGet (load_cache (.content (.jobj fs))) k
                  = some (w.getD (.jobj [])) →
              objGet fs k = w →
              ∃ v, objGet (load_cache (.content (.jobj fs))) k = some v ∧
                (isObjJ v = true ∨
                  ∃ fs2, FileState.content (.jobj fs)
                      = .content (.jobj fs2) ∧
                    isVersionOne (objGet fs2 "version") = true ∧
                    objGet fs2 k = some v) := by
            intro w hres hw
            cases w with
            | none => exact ⟨.jobj [], hres, Or.inl rfl⟩
            | some v => exact ⟨v, hres, Or.inr ⟨fs, rfl, h, hw⟩⟩
          rcases hk with rfl | rfl | rfl | rfl
          · refine finish (objGet fs "shortlink_to_film") ?_ rfl
            rw [load_cache_pass fs h,
              objGet_objSetdefault_other _ _ _ _ (by decide),
              objGet_objSetdefault_other _ _ _ _ (by decide),
              objGet_objSetdefault_other _ _ _ _ (by decide),
              objGet_objSetdefault_self]
          · refine finish (objGet fs "film_to_tmdb") ?_ rfl
            rw [load_cache_pass fs h,
              objGet_objSetdefault_other _ _ _ _ (by decide),
              objGet_objSetdefault_other _ _ _ _ (by decide),
              objGet_objSetdefault_self,
              objGet_objSetdefault_other _ _ _ _ (by decide)]
          · refine finish (objGet fs "list_cache") ?_ rfl
            rw [load_cache_pass fs h,
              objGet_objSetdefault_other _ _ _ _ (by decide),
              objGet_objSetdefault_self,
              objGet_objSetdefault_other _ _ _ _ (by decide),
              objGet_objSetdefault_other _ _ _ _ (by decide)]
          · refine finish (objGet fs "tmdb_movie_data") ?_ rfl
            rw [load_cache_pass fs h,
              objGet_objSetdefault_self,
              objGet_objSetdefault_other _ _ _ _ (by decide),
              objGet_objSetdefault_other _ _ _ _ (by decide),
              objGet_objSetdefault_other _ _ _ _ (by decide)]
        · intro k hk
          simp only [List.mem_cons, List.not_mem_nil, or_false] at hk
          have finish : ∀ w : Option JVal,
              objGet (load_cache_critics (.content (.jobj fs))) k
                  = some (w.getD (.jobj [])) →
              objGet fs k = w →
              ∃ v, objGet (load_cache_critics (.content (.jobj fs))) k
                    = some v ∧
                (isObjJ v = true ∨
                  ∃ fs2, FileState.content (.jobj fs)
                      = .content (.jobj fs2) ∧
                    isVersionOne (objGet fs2 "version") = true ∧
                    objGet fs2 k = some v) := by
            intro w hres hw
            cases w with
            | none => exact ⟨.jobj [], hres, Or.inl rfl⟩
            | some v => exact ⟨v, hres, Or.inr ⟨fs, rfl, h, hw⟩⟩
          rcases hk with rfl | rfl | rfl
          · refine finish (objGet fs "shortlink_to_film") ?_ rfl
            rw [load_cache_critics_pass fs h,
              objGet_objSetdefault_other _ _ _ _ (by decide),
              objGet_objSetdefault_other _ _ _ _ (by decide),
              objGet_objSetdefault_self]
          · refine finish (objGet fs "film_to_tmdb") ?_ rfl
            rw [load_cache_critics_pass fs h,
              objGet_objSetdefault_other _ _ _ _ (by decide),
              objGet_objSetdefault_self,
              objGet_objSetdefault_other _ _ _ _ (by decide)]
          · refine finish (objGet fs "tmdb_movie_data") ?_ rfl
            rw [load_cache_critics_pass fs h,
              objGet_objSetdefault_self,
              objGet_objSetdefault_other _ _ _ _ (by decide),
              objGet_objSetdefault_other _ _ _ _ (by decide)]
      · rw [Bool.not_eq_true] at h
        have e1 : load_cache (.content (.jobj fs)) = emptyCacheScrape := by
          simp [load_cache, h]
        have e2 : load_cache_critics (.content (.jobj fs))
            = emptyCacheCritics := by
          simp [load_cache_critics, h]
        rw [e1, e2]
        exact ⟨rfl, rfl, emptyS _, emptyC _⟩

/-- Witness for the amended C10 at a concrete input: a valid version-1 file
missing two namespaces and binding one to a non-dict value. -/
theorem c10_amended_load_cache_shape_witness :
    isVersionOne (objGet (load_cache (.content (.jobj
        [("version", .jnum 1), ("film_to_tmdb", .jnull)]))) "version")
      = true ∧
    "tmdb_movie_data" ∈ ["shortlink_to_film", "film_to_tmdb", "list_cache",
                         "tmdb_movie_data"] ∧
    (∃ v, objGet (load_cache (.content (.jobj
        [("version", .jnum 1), ("film_to_tmdb", .jnull)])))
          "tmdb_movie_data" = some v ∧
      (isObjJ v = true ∨
        ∃ fs, FileState.content (.jobj
            [("version", .jnum 1), ("film_to_tmdb", .jnull)])
          = .content (.jobj fs) ∧
          isVersionOne (objGet fs "version") = true ∧
          objGet fs "tmdb_movie_data" = some v)) :=
  ⟨(c10_amended_load_cache_shape (.content (.jobj
      [("version", .jnum 1), ("film_to_tmdb", .jnull)]))).1,
   by simp,
   (c10_amended_load_cache_shape (.content (.jobj
      [("version", .jnum 1), ("film_to_tmdb", .jnull)]))).2.2.1
     "tmdb_movie_data" (by simp)⟩

/-!  ## Short-link resolver -/

/-- Network oracle for the short-link resolvers: the final URL reported by
`SESSION.head(url, allow_redirects=True).url` respectively
`SESSION.get(url, allow_redirects=True).url`; `none` means the request
raised (timeout, connection error, non-2xx via raise, ...). -/
structure ShortNet where
  headReq : String → Option String
  getReq : String → Option String

/-- The cached-destination check `isinstance(cached, str) and cached` shared
by both resolvers, on the `shortlink_to_film` namespace. -/
def cacheHitStr (smap : Jobj) (url : String) : Option String :=
  match objGet smap url with
  | some (.jstr c) => if c = "" then none else some c
  | _ => none

/-- Lines 205-209 of `scrape_tmdb_ids.py`: the fallback GET of
`expand_boxd_shortlink` is not wrapped in a `try`, so a raising GET
propagates to the caller; its result is returned even when falsy. -/
def scrapeGetNoCatch (net : ShortNet) (smap : Jobj) (url : String) :
    Except String (String × Jobj) :=
  match net.getReq url with
  | none => .error "request exception"
  | some final =>
      if final = "" then .ok (final, smap)
      else .ok (final, objSet smap url (.jstr final))

/-- `expand_boxd_shortlink` from `scrape_tmdb_ids.py` (with a cache dict
present, as in every call site): cached destination, else HEAD probe (all
failures swallowed), else the unguarded GET. -/
def expand_boxd_shortlink (net : ShortNet) (smap : Jobj) (url : String) :
    Except String (String × Jobj) :=
  match cacheHitStr smap url with
  | some c => .ok (c, smap)
  | none =>
      match net.headReq url with
      | some final =>
          if final = "" then scrapeGetNoCatch net smap url
          else .ok (final, objSet smap url (.jstr final))
      | none => scrapeGetNoCatch net smap url

/-- The second `try` block of `expand_shortlink` in
`enrich_critics_list.py`: a guarded GET, degrading to the original URL. -/
def criticsGetGuarded (net : ShortNet) (smap : Jobj) (url : String) :
    String × Jobj :=
  match net.getReq url with
  | some final =>
      if final = "" then (url, smap)
      else (final, objSet smap url (.jstr final))
  | none => (url, smap)

/-- `expand_shortlink` from `enrich_critics_list.py`: cached destination,
else guarded HEAD, else guarded GET, else the original URL; never raises. -/
def expand_shortlink (net : ShortNet) (smap : Jobj) (url : String) :
    String × Jobj :=
  match cacheHitStr smap url with
  | some c => (c, smap)
  | none =>
      match net.headReq url with
      | some final =>
          if final = "" then criticsGetGuarded net smap url
          else (final, objSet smap url (.jstr final))
      | none => criticsGetGuarded net smap url

/-- A network where every request raises. -/
def downNet : ShortNet := ⟨fun _ => none, fun _ => none⟩

/-- C2 as stated is false for the diary script: with an empty cache and a
network where both the HEAD probe and the fallback GET raise,
`expand_boxd_shortlink` propagates the exception to its caller instead of
returning the original input. -/
theorem c2_counterexample_scrape_resolver_raises :
    expand_boxd_shortlink downNet [] "https://boxd.it/2bbo" =
      .error "request exception" := rfl

/-- C2 amended: the critics-list resolver (`expand_shortlink`) satisfies the
claim — it is a total function that returns the cached or redirect
destination on success and the original input unchanged on any network
failure; the diary-script resolver (`expand_boxd_shortlink`), however,
raises to its caller when the HEAD probe fails or reports no URL and the
fallback GET also fails. -/
theorem c2_amended_shortlink_failure_behaviour :
    (∀ (net : ShortNet) (smap : Jobj) (url : String),
      cacheHitStr smap url = none →
      (net.headReq url = none ∨ net.headReq url = some "") →
      (net.getReq url = none ∨ net.getReq url = some "") →
      expand_shortlink net smap url = (url, smap)) ∧
    (∀ (net : ShortNet) (smap : Jobj) (url final : String),
      cacheHitStr smap url = none →
      net.headReq url = some final → final ≠ "" →
      expand_shortlink net smap url = (final, objSet smap url (.jstr final))) ∧
    (∀ (net : ShortNet) (smap : Jobj) (url c : String),
      cacheHitStr smap url = some c →
      expand_shortlink net smap url = (c, smap)) ∧
    (∀ (net : ShortNet) (smap : Jobj) (url : String),
      cacheHitStr smap url = none →
      (net.headReq url = none ∨ net.headReq url = some "") →
      net.getReq url = none →
      expand_boxd_shortlink net smap url = .error "request exception") := by
  refine ⟨?_, ?_, ?_, ?_⟩
  · intro net smap url hc hh hg
    rcases hh with hh | hh <;> rcases hg with hg | hg <;>
      simp [expand_shortlink, criticsGetGuarded, hc, hh, hg]
  · intro net smap url final hc hh hf
    simp [expand_shortlink, hc, hh, hf]
  · intro net smap url c hc
    simp [expand_shortlink, hc]
  · intro net smap url hc hh hg
    rcases hh with hh | hh <;>
      simp [expand_boxd_shortlink, scrapeGetNoCatch, hc, hh, hg]

/-- Witness for the amended C2 at concrete inputs: a dead network degrades
the critics resolver to identity, and a successful HEAD reports its
destination. -/
theorem c2_amended_shortlink_failure_behaviour_witness :
    expand_shortlink downNet [] "https://boxd.it/2bbo" =
      ("https://boxd.it/2bbo", []) ∧
    expand_shortlink
        ⟨fun _ => some "https://letterboxd.com/film/parasite-2019/",
         fun _ => none⟩ [] "https://boxd.it/2bbo" =
      ("https://letterboxd.com/film/parasite-2019/",
       objSet [] "https://boxd.it/2bbo"
         (.jstr "https://letterboxd.com/film/parasite-2019/")) :=
  ⟨c2_amended_shortlink_failure_behaviour.1 downNet [] "https://boxd.it/2bbo"
      rfl (Or.inl rfl) (Or.inl rfl),
   c2_amended_shortlink_failure_behaviour.2.1
      ⟨fun _ => some "https://letterboxd.com/film/parasite-2019/",
       fun _ => none⟩ [] "https://boxd.it/2bbo"
      "https://letterboxd.com/film/parasite-2019/" rfl rfl (by decide)⟩

/-!  ## Metadata enricher

Network oracle for the TMDb API: a successfully parsed JSON-object response
or `none` for a raised request (timeout, connection error, `raise_for_status`).
-/

structure TmdbNet where
  details : Int → Option Jobj
  credits : Int → Option Jobj

/-- Python `for x in v` where `x.get` is then called on every element: a
list of dicts yields its elements; an empty list, empty dict or empty string
yields nothing; anything else raises (`TypeError`/`AttributeError`). -/
def iterDicts : JVal → Except Unit (List Jobj)
  | .jarr xs => xs.mapM (fun x => match x with
      | .jobj fs => Except.ok fs
      | _ => Except.error ())
  | .jstr s => if s = "" then .ok [] else .error ()
  | .jobj fs => if fs.isEmpty then .ok [] else .error ()
  | _ => .error ()

/-- `[c.get(key) for c in items if c.get(key)]`. -/
def pluckTruthy (key : String) (items : List Jobj) : List JVal :=
  items.filterMap (fun c => match objGet c key with
    | some v => if truthy v then some v else none
    | none => none)

/-- Python `x == s` for a string literal `s`: only equal strings compare
equal. -/
def pyEqStr (v : JVal) (s : String) : Bool :=
  match v with
  | .jstr t => t == s
  | _ => false

/-- Python `s in xs` for a string `s` over decoded values. -/
def pyHasStr (xs : List JVal) (s : String) : Bool :=
  xs.any (fun v => pyEqStr v s)

/-- `person.get("job") == j`. -/
def jobIs (p : Jobj) (j : String) : Bool :=
  match objGet p "job" with
  | some v => pyEqStr v j
  | none => false

/-- `d.get("gender") == 1` (in Python `True == 1` and `None != 1`). -/
def genderIsOne (p : Jobj) : Bool :=
  match objGet p "gender" with
  | some (.jnum n) => n == 1
  | some (.jbool b) => b
  | _ => false

/-- `writer_jobs` from all three scripts. -/
def writer_jobs : List String := ["Writer", "Screenplay", "Story", "Characters"]

/-- The details-derived values computed before the credits fetch (lines
529-546 of `scrape_tmdb_ids.py`, lines 160-170 of
`enrich_curated_lists.py`). -/
structure DetailsPre where
  country_codes : List JVal
  country_names : List JVal
  language_codes : List JVal
  language_names : List JVal
  original_language : JVal
  is_american : Bool
  is_english : Bool

/-- Extract countries, languages and the derived flags from a details
response; a shape error raises to the enclosing handler. -/
def detailsPre (d : Jobj) : Except Unit DetailsPre :=
  match iterDicts (objGetD d "production_countries" (.jarr [])) with
  | .error e => .error e
  | .ok pcs =>
      match iterDicts (objGetD d "spoken_languages" (.jarr [])) with
      | .error e => .error e
      | .ok langs =>
          let country_codes := pluckTruthy "iso_3166_1" pcs
          let original_language := objGetD d "original_language" (.jstr "")
          .ok { country_codes := country_codes,
                country_names := pluckTruthy "name" pcs,
                language_codes := pluckTruthy "iso_639_1" langs,
                language_names := pluckTruthy "name" langs,
                original_language := original_language,
                is_american := pyHasStr country_codes "US",
                is_english := pyEqStr original_language "en" }

/-- `{"name": person.get("name"), "gender": person.get("gender")}`. -/
def entryNameGender (p : Jobj) : Jobj :=
  [("name", objGetD p "name" .jnull), ("gender", objGetD p "gender" .jnull)]

/-- `{"name": ..., "job": ..., "gender": ...}` (scrape-script writers). -/
def entryNameJobGender (p : Jobj) : Jobj :=
  [("name", objGetD p "name" .jnull), ("job", objGetD p "job" .jnull),
   ("gender", objGetD p "gender" .jnull)]

/-- Lines 559-580 of `scrape_tmdb_ids.py`: directors, writers and the two
woman flags derived from a crew list. -/
def creditsFieldsFromCrew (crew : List Jobj) : Jobj :=
  let directors := (crew.filter (fun p => jobIs p "Director")).map entryNameGender
  let writers := (crew.filter (fun p => writer_jobs.any (fun j => jobIs p j))).map
    entryNameJobGender
  [("directors", .jarr (directors.map .jobj)),
   ("writers", .jarr (writers.map .jobj)),
   ("directed_by_woman", .jbool (directors.any genderIsOne)),
   ("written_by_woman", .jbool (writers.any genderIsOne))]

/-- The credits `try` block of `scrape_tmdb_ids.py` (lines 555-582): a
raised fetch or a crew shape error turns `credits_data` into a single
`credits_error` marker. -/
def credits_data_scrape (net : TmdbNet) (id : Int) : Jobj :=
  match net.credits id with
  | none => [("credits_error", .jstr "credits request exception")]
  | some c =>
      match iterDicts (objGetD c "crew" (.jarr [])) with
      | .error _ => [("credits_error", .jstr "credits shape error")]
      | .ok crew => creditsFieldsFromCrew crew

/-- The details part of the `data["tmdb_data"]` literal of
`scrape_tmdb_ids.py` (lines 584-600), before `**credits_data` is merged. -/
def recordFieldsScrape (d : Jobj) (pre : DetailsPre) (genresL : List Jobj) :
    Jobj :=
  [("title", objGetD d "title" .jnull),
   ("original_title", objGetD d "original_title" .jnull),
   ("original_language", pre.original_language),
   ("release_date", objGetD d "release_date" .jnull),
   ("overview", objGetD d "overview" .jnull),
   ("runtime", objGetD d "runtime" .jnull),
   ("genres", .jarr (genresL.map (fun g => objGetD g "name" .jnull))),
   ("popularity", objGetD d "popularity" .jnull),
   ("vote_average", objGetD d "vote_average" .jnull),
   ("vote_count", objGetD d "vote_count" .jnull),
   ("poster_path", objGetD d "poster_path" .jnull),
   ("backdrop_path", objGetD d "backdrop_path" .jnull),
   ("production_countries", .jobj [("codes", .jarr pre.country_codes),
                                   ("names", .jarr pre.country_names)]),
   ("is_american", .jbool pre.is_american),
   ("spoken_languages", .jobj [("codes", .jarr pre.language_codes),
                               ("names", .jarr pre.language_names)]),
   ("is_english", .jbool pre.is_english)]

/-- Outcome of the per-item TMDb pass of `enrich_with_tmdb` in
`scrape_tmdb_ids.py` (lines 511-614) for one film with a resolved TMDb id:
the attached record, the per-item error, the `tmdb_movie_data` namespace
afterwards, and how many details/credits requests were issued. -/
structure EnrichScrapeResult where
  tmdb_data : Option JVal
  tmdb_api_error : Option String
  cacheOut : Jobj
  detailsCalls : Nat
  creditsCalls : Nat

/-- One item of pass 2 of `enrich_with_tmdb` in `scrape_tmdb_ids.py`: a
cache hit short-circuits all network access; otherwise details are fetched (a
failure aborts the item before any credits request), then credits, and the
assembled record is written to the cache unconditionally. -/
def enrichOneScrape (net : TmdbNet) (tmdbCache : Jobj) (id : Int) :
    EnrichScrapeResult :=
  let key := toString id
  match objGet tmdbCache key with
  | some v => ⟨some v, none, tmdbCache, 0, 0⟩
  | none =>
      match net.details id with
      | none => ⟨none, some "details request exception", tmdbCache, 1, 0⟩
      | some d =>
          match detailsPre d with
          | .error _ => ⟨none, some "details shape error", tmdbCache, 1, 0⟩
          | .ok pre =>
              let cdata := credits_data_scrape net id
              match iterDicts (objGetD d "genres" (.jarr [])) with
              | .error _ => ⟨none, some "details shape error", tmdbCache, 1, 1⟩
              | .ok genresL =>
                  let record := JVal.jobj (recordFieldsScrape d pre genresL
                    ++ cdata)
                  ⟨some record, none, objSet tmdbCache key record, 1, 1⟩

/-- Does `needle` occur as a contiguous run inside `hay` (Python substring
`in`)? -/
def hasRun (needle : List Char) : List Char → Bool
  | [] => needle.isEmpty
  | c :: rest => needle.isPrefixOf (c :: rest) || hasRun needle rest

/-- Python `"directed_by_woman" in cached_data` for an arbitrary decoded
cached value: key test on a dict, `==`-membership on a list, substring test
on a string, `TypeError` otherwise. -/
def pyInDirectedKey : JVal → Except Unit Bool
  | .jobj fs => .ok (objHas fs "directed_by_woman")
  | .jarr xs => .ok (xs.any (fun v => pyEqStr v "directed_by_woman"))
  | .jstr s => .ok (hasRun "directed_by_woman".data s.data)
  | _ => .error ()

/-- Outcome of the per-row TMDb block of `enrich` in
`enrich_critics_list.py` (lines 239-286) for one TMDb id. -/
structure EnrichCriticsResult where
  tmdb_data : Option JVal
  cacheOut : Jobj
  detailsCalls : Nat
  creditsCalls : Nat

/-- The `tmdb_data` dict literal of `enrich_critics_list.py`
(lines 270-285). -/
def recordFieldsCritics (d : Jobj) (country_codes : List JVal)
    (original_language : JVal) (genresL : List Jobj) (crew : List Jobj) :
    Jobj :=
  let directors := (crew.filter (fun p => jobIs p "Director")).map
    entryNameGender
  let writers := (crew.filter (fun p => writer_jobs.any (fun j => jobIs p j))).map
    entryNameGender
  [("title", objGetD d "title" .jnull),
   ("vote_average", objGetD d "vote_average" .jnull),
   ("vote_count", objGetD d "vote_count" .jnull),
   ("popularity", objGetD d "popularity" .jnull),
   ("runtime", objGetD d "runtime" .jnull),
   ("genres", .jarr (genresL.map (fun g => objGetD g "name" .jnull))),
   ("directors", .jarr (directors.map .jobj)),
   ("writers", .jarr (writers.map .jobj)),
   ("production_countries", .jobj [("codes", .jarr country_codes)]),
   ("original_language", original_language),
   ("is_american", .jbool (pyHasStr country_codes "US")),
   ("is_english", .jbool (pyEqStr original_language "en")),
   ("directed_by_woman", .jbool (directors.any genderIsOne)),
   ("written_by_woman", .jbool (writers.any genderIsOne))]

/-- The fetch-and-build path of `enrich` in `enrich_critics_list.py`
(lines 247-286): details and credits are both fetched before the details
check; both fetch helpers swallow their own exceptions and return `None`;
a failed details fetch skips the row; comprehension shape errors are not
caught anywhere and crash the run (`Except.error`).  When details succeed
the assembled record is always cached. -/
def criticsFetch (net : TmdbNet) (tmdbCache : Jobj) (id : Int) :
    Except Unit EnrichCriticsResult :=
  let key := toString id
  let details := net.details id
  let credits := net.credits id
  match details with
  | none => .ok ⟨none, tmdbCache, 1, 1⟩
  | some d =>
      match iterDicts (objGetD d "production_countries" (.jarr [])) with
      | .error e => .error e
      | .ok pcs =>
          let country_codes := pluckTruthy "iso_3166_1" pcs
          let original_language := objGetD d "original_language" (.jstr "")
          let crewRaw := match credits with
            | none => JVal.jarr []
            | some c => objGetD c "crew" (.jarr [])
          match iterDicts crewRaw with
          | .error e => .error e
          | .ok crew =>
              match iterDicts (objGetD d "genres" (.jarr [])) with
              | .error e => .error e
              | .ok genresL =>
                  let record := JVal.jobj (recordFieldsCritics d
                    country_codes original_language genresL crew)
                  .ok ⟨some record, objSet tmdbCache key record, 1, 1⟩

/-- One row of the TMDb block of `enrich` in `enrich_critics_list.py`: the
cached record is used only when it is truthy and carries the
`directed_by_woman` key; otherwise both endpoints are fetched. -/
def enrichOneCritics (net : TmdbNet) (tmdbCache : Jobj) (id : Int) :
    Except Unit EnrichCriticsResult :=
  match objGet tmdbCache (toString id) with
  | some cached =>
      if truthy cached then
        match pyInDirectedKey cached with
        | .error _ => .error ()
        | .ok true => .ok ⟨some cached, tmdbCache, 0, 0⟩
        | .ok false => criticsFetch net tmdbCache id
      else criticsFetch net tmdbCache id
  | none => criticsFetch net tmdbCache id

/-- `{"id", "name", "gender", "profile_path"}` entry of
`enrich_curated_lists.py` directors. -/
def entryCuratedDirector (p : Jobj) : Jobj :=
  [("id", objGetD p "id" .jnull), ("name", objGetD p "name" .jnull),
   ("gender", objGetD p "gender" .jnull),
   ("profile_path", objGetD p "profile_path" .jnull)]

/-- `{"id", "name", "job", "gender", "profile_path"}` entry of
`enrich_curated_lists.py` writers. -/
def entryCuratedWriter (p : Jobj) : Jobj :=
  [("id", objGetD p "id" .jnull), ("name", objGetD p "name" .jnull),
   ("job", objGetD p "job" .jnull), ("gender", objGetD p "gender" .jnull),
   ("profile_path", objGetD p "profile_path" .jnull)]

/-- The record literal of `build_tmdb_data` in `enrich_curated_lists.py`
(lines 207-228). -/
def recordFieldsCurated (d : Jobj) (pre : DetailsPre) (genresL : List Jobj)
    (crew : List Jobj) : Jobj :=
  let directors := (crew.filter (fun p => jobIs p "Director")).map
    entryCuratedDirector
  let writers := (crew.filter (fun p => writer_jobs.any (fun j => jobIs p j))).map
    entryCuratedWriter
  [("title", objGetD d "title" .jnull),
   ("original_title", objGetD d "original_title" .jnull),
   ("original_language", pre.original_language),
   ("release_date", objGetD d "release_date" .jnull),
   ("overview", objGetD d "overview" .jnull),
   ("runtime", objGetD d "runtime" .jnull),
   ("genres", .jarr (genresL.map (fun g => objGetD g "name" .jnull))),
   ("popularity", objGetD d "popularity" .jnull),
   ("vote_average", objGetD d "vote_average" .jnull),
   ("vote_count", objGetD d "vote_count" .jnull),
   ("poster_path", objGetD d "poster_path" .jnull),
   ("backdrop_path", objGetD d "backdrop_path" .jnull),
   ("production_countries", .jobj [("codes", .jarr pre.country_codes),
                                   ("names", .jarr pre.country_names)]),
   ("is_american", .jbool pre.is_american),
   ("spoken_languages", .jobj [("codes", .jarr pre.language_codes),
                               ("names", .jarr pre.language_names)]),
   ("is_english", .jbool pre.is_english),
   ("directors", .jarr (directors.map .jobj)),
   ("writers", .jarr (writers.map .jobj)),
   ("directed_by_woman", .jbool (directors.any genderIsOne)),
   ("written_by_woman", .jbool (writers.any genderIsOne))]

/-- `build_tmdb_data` from `enrich_curated_lists.py`, paired with the number
of details/credits requests it issued.  `Except.error` is an exception
escaping the function (raised details fetch or uncaught shape error); a
failed credits fetch or crew shape error yields the `tmdb_error` marker
record instead (lines 204-205). -/
def build_tmdb_data (net : TmdbNet) (id : Int) :
    Except Unit Jobj × Nat × Nat :=
  match net.details id with
  | none => (.error (), 1, 0)
  | some d =>
      match detailsPre d with
      | .error _ => (.error (), 1, 0)
      | .ok pre =>
          match net.credits id with
          | none => (.ok [("tmdb_error", .jstr "credits request exception")],
                     1, 1)
          | some c =>
              match iterDicts (objGetD c "crew" (.jarr [])) with
              | .error _ => (.ok [("tmdb_error", .jstr "credits shape error")],
                             1, 1)
              | .ok crew =>
                  match iterDicts (objGetD d "genres" (.jarr [])) with
                  | .error _ => (.error (), 1, 1)
                  | .ok genresL =>
                      (.ok (recordFieldsCurated d pre genresL crew), 1, 1)

/-- Outcome of the per-film TMDb block of `main` in
`enrich_curated_lists.py` (lines 282-297). -/
structure CuratedStepResult where
  tmdb_data : Option JVal
  tmdb_error : Bool
  cacheOut : Jobj
  detailsCalls : Nat
  creditsCalls : Nat

/-- The guarded `build_tmdb_data` call of `main` in
`enrich_curated_lists.py` (lines 288-294): every escaping exception is
caught into `film["tmdb_error"]`; the record is written to the cache only
when it carries no `tmdb_error` marker. -/
def curatedFetch (net : TmdbNet) (tmdbCache : Jobj) (id : Int) :
    CuratedStepResult :=
  let key := toString id
  match build_tmdb_data net id with
  | (.error _, dc, cc) => ⟨none, true, tmdbCache, dc, cc⟩
  | (.ok fields, dc, cc) =>
      if objHas fields "tmdb_error" then
        ⟨some (.jobj fields), false, tmdbCache, dc, cc⟩
      else
        ⟨some (.jobj fields), false, objSet tmdbCache key (.jobj fields),
         dc, cc⟩

/-- One film of the TMDb block of `main` in `enrich_curated_lists.py`
(lines 282-294): a truthy cached record with the `directed_by_woman` key is
reused; otherwise `build_tmdb_data` runs guarded. -/
def curatedCacheStep (net : TmdbNet) (tmdbCache : Jobj) (id : Int) :
    Except Unit CuratedStepResult :=
  match objGet tmdbCache (toString id) with
  | some cached =>
      if truthy cached then
        match pyInDirectedKey cached with
        | .error _ => .error ()
        | .ok true => .ok ⟨some cached, false, tmdbCache, 0, 0⟩
        | .ok false => .ok (curatedFetch net tmdbCache id)
      else .ok (curatedFetch net tmdbCache id)
  | none => .ok (curatedFetch net tmdbCache id)

/-- Dict assignment: the written key reads back the new value, every other
key is unchanged. -/
theorem objGet_objSet (fs : Jobj) (k : String) (v : JVal) (k1 : String) :
    objGet (objSet fs k v) k1 = if k = k1 then some v else objGet fs k1 := by
  induction fs with
  | nil => simp [objSet, objGet_cons, objGet_nil]
  | cons hd tl ih =>
      obtain ⟨k0, v0⟩ := hd
      by_cases h0 : k0 = k
      · subst h0
        by_cases h1 : k0 = k1 <;> simp [objSet, objGet_cons, h1]
      · by_cases h1 : k0 = k1
        · subst h1
          have hks : ¬ k = k0 := fun e => h0 e.symm
          simp [objSet, objGet_cons, h0, hks]
        · simp [objSet, objGet_cons, h0, h1, ih]

/-- Does an optionally looked-up record carry the given marker key? -/
def recordHasMarker (v : Option JVal) (k : String) : Bool :=
  match v with
  | some (.jobj fs) => objHas fs k
  | _ => false

/-- A TMDb network where the details endpoint answers with an empty object
and the credits endpoint raises. -/
def detailsOkCreditsDown : TmdbNet := ⟨fun _ => some [], fun _ => none⟩

/-- C3 as stated is false: in `scrape_tmdb_ids.py`, when the details fetch
succeeds and the credits fetch fails, the assembled record carries the
`credits_error` marker and is nevertheless written into the
`tmdb_movie_data` cache. -/
theorem c3_counterexample_scrape_caches_credits_error :
    recordHasMarker
      (objGet (enrichOneScrape detailsOkCreditsDown [] 9).cacheOut "9")
      "credits_error" = true := rfl

/-- C3 amended: a record produced from a failed details fetch is never
cached (the diary script leaves the cache untouched whenever it records
`tmdb_api_error`), and the curated-lists script never caches a record
carrying the `tmdb_error` marker; the diary script, however, does cache
partial-success records carrying a `credits_error` marker. -/
theorem c3_amended_error_record_caching :
    (∀ (net : TmdbNet) (cache : Jobj) (id : Int),
      (enrichOneScrape net cache id).tmdb_api_error ≠ none →
      (enrichOneScrape net cache id).cacheOut = cache) ∧
    (∀ (net : TmdbNet) (cache : Jobj) (id : Int) (res : CuratedStepResult),
      curatedCacheStep net cache id = .ok res →
      ∀ k v, objGet res.cacheOut k = some v →
        objGet cache k = some v ∨
          recordHasMarker (some v) "tmdb_error" = false) := by
  constructor
  · intro net cache id h
    unfold enrichOneScrape at h ⊢
    cases hq : objGet cache (toString id) with
    | some w => simp [hq] at h
    | none =>
      cases hd : net.details id with
      | none => simp [hq, hd]
      | some d =>
        cases hp : detailsPre d with
        | error e => simp [hq, hd, hp]
        | ok pre =>
          cases hg : iterDicts (objGetD d "genres" (.jarr [])) with
          | error e => simp [hq, hd, hp, hg]
          | ok g => simp [hq, hd, hp, hg] at h
  · intro net cache id res hres k v hv
    have fetchCase : ∀ res2 : CuratedStepResult,
        curatedFetch net cache id = res2 →
        objGet res2.cacheOut k = some v →
        objGet cache k = some v ∨
          recordHasMarker (some v) "tmdb_error" = false := by
      intro res2 hh hv2
      unfold curatedFetch at hh
      rcases hb : build_tmdb_data net id with ⟨e, dc, cc⟩
      rw [hb] at hh
      cases e with
      | error u =>
          subst hh
          exact Or.inl hv2
      | ok fields =>
          by_cases hmark : objHas fields "tmdb_error" = true
          · simp only [hmark, if_true] at hh
            subst hh
            exact Or.inl hv2
          · simp only [hmark, if_false, Bool.false_eq_true] at hh
            subst hh
            simp only at hv2
            rw [objGet_objSet] at hv2
            by_cases hk : toString id = k
            · simp only [hk, if_true] at hv2
              right
              cases hv2
              simp [recordHasMarker]
              exact Bool.not_eq_true _ ▸ hmark
            · simp only [hk, if_false] at hv2
              exact Or.inl hv2
    unfold curatedCacheStep at hres
    cases hq : objGet cache (toString id) with
    | none =>
        rw [hq] at hres
        simp only at hres
        cases hres
        exact fetchCase _ rfl hv
    | some cached =>
        rw [hq] at hres
        by_cases ht : truthy cached = true
        · simp only [ht, if_true] at hres
          cases hik : pyInDirectedKey cached with
          | error u => rw [hik] at hres; cases hres
          | ok b =>
              rw [hik] at hres
              cases b with
              | true =>
                  simp only at hres
                  cases hres
                  exact Or.inl hv
              | false =>
                  simp only at hres
                  cases hres
                  exact fetchCase _ rfl hv
        · simp only [Bool.not_eq_true] at ht
          simp only [ht, Bool.false_eq_true, if_false] at hres
          cases hres
          exact fetchCase _ rfl hv

/-- Witness for the amended C3 at concrete inputs: with a failing details
endpoint the diary cache is untouched, and a curated record built from a
failing credits endpoint leaves the existing cache entries as the only
cached values. -/
theorem c3_amended_error_record_caching_witness :
    (enrichOneScrape ⟨fun _ => none, fun _ => none⟩ [] 3).cacheOut = [] ∧
    (objGet [("a", JVal.jnum 5)] "a" = some (.jnum 5) ∨
      recordHasMarker (some (.jnum 5)) "tmdb_error" = false) :=
  ⟨c3_amended_error_record_caching.1 ⟨fun _ => none, fun _ => none⟩ [] 3
      (Option.some_ne_none _),
   c3_amended_error_record_caching.2 detailsOkCreditsDown
      [("a", JVal.jnum 5)] 9
      ⟨some (.jobj [("tmdb_error", .jstr "credits request exception")]),
       false, [("a", JVal.jnum 5)], 1, 1⟩ rfl "a" (.jnum 5) rfl⟩

/-- A TMDb network where the details endpoint raises but the credits
endpoint would answer. -/
def detailsDownCreditsOk : TmdbNet :=
  ⟨fun _ => none, fun _ => some [("crew", .jarr [])]⟩

/-- C5 as stated is false for the critics script: `enrich` in
`enrich_critics_list.py` fetches credits before checking whether the
details fetch failed, so a failed details fetch still issues one credits
request (`creditsCalls = 1`), and the row is dropped without a recorded
error. -/
theorem c5_counterexample_critics_credits_after_details_failure :
    enrichOneCritics detailsDownCreditsOk [] 7 = .ok ⟨none, [], 1, 1⟩ := rfl

/-- C5 amended: in the diary script (`scrape_tmdb_ids.py`) a failed details
fetch records a per-item error and issues no credits request; in the
critics script the credits fetch is issued unconditionally alongside the
details fetch, so a failed details fetch does not prevent it, and the item
is dropped without an error field. -/
theorem c5_amended_details_failure_skips_credits :
    ∀ (net : TmdbNet) (cache : Jobj) (id : Int),
      objGet cache (toString id) = none →
      net.details id = none →
      enrichOneScrape net cache id =
        ⟨none, some "details request exception", cache, 1, 0⟩ := by
  intro net cache id hq hd
  simp [enrichOneScrape, hq, hd]

/-- Witness for the amended C5 at a concrete input. -/
theorem c5_amended_details_failure_skips_credits_witness :
    enrichOneScrape ⟨fun _ => none, fun _ => none⟩ [] 3 =
      ⟨none, some "details request exception", [], 1, 0⟩ :=
  c5_amended_details_failure_skips_credits ⟨fun _ => none, fun _ => none⟩
    [] 3 rfl rfl

/-- The critics record literal always carries the `directed_by_woman` key. -/
theorem recordFieldsCritics_hasKey (d : Jobj) (cc : List JVal) (ol : JVal)
    (g cr : List Jobj) :
    objHas (recordFieldsCritics d cc ol g cr) "directed_by_woman" = true := by
  simp [recordFieldsCritics, objHas, objGet, List.lookup]

/-- The critics record literal is Python-truthy (a nonempty dict). -/
theorem recordFieldsCritics_truthy (d : Jobj) (cc : List JVal) (ol : JVal)
    (g cr : List Jobj) :
    truthy (.jobj (recordFieldsCritics d cc ol g cr)) = true := by
  simp [recordFieldsCritics, truthy]

/-- A present cache key short-circuits the diary enricher. -/
theorem enrichOneScrape_hit (net : TmdbNet) (cache : Jobj) (id : Int)
    (w : JVal) (hq : objGet cache (toString id) = some w) :
    enrichOneScrape net cache id = ⟨some w, none, cache, 0, 0⟩ := by
  simp [enrichOneScrape, hq]

/-- The three possible outcomes of the diary enricher: cache hit, fresh
record written, or failure with the cache untouched and no record. -/
theorem enrichOneScrape_cases (net : TmdbNet) (cache : Jobj) (id : Int) :
    (∃ w, objGet cache (toString id) = some w ∧
      enrichOneScrape net cache id = ⟨some w, none, cache, 0, 0⟩) ∨
    (objGet cache (toString id) = none ∧
      ((∃ r, enrichOneScrape net cache id =
          ⟨some r, none, objSet cache (toString id) r, 1, 1⟩) ∨
       ((enrichOneScrape net cache id).cacheOut = cache ∧
        (enrichOneScrape net cache id).tmdb_data = none))) := by
  cases hq : objGet cache (toString id) with
  | some w => exact Or.inl ⟨w, rfl, enrichOneScrape_hit net cache id w hq⟩
  | none =>
      refine Or.inr ⟨rfl, ?_⟩
      cases hd : net.details id with
      | none => exact Or.inr (by simp [enrichOneScrape, hq, hd])
      | some d =>
          cases hp : detailsPre d with
          | error e => exact Or.inr (by simp [enrichOneScrape, hq, hd, hp])
          | ok pre =>
              cases hg : iterDicts (objGetD d "genres" (.jarr [])) with
              | error e =>
                  exact Or.inr (by simp [enrichOneScrape, hq, hd, hp, hg])
              | ok genresL =>
                  refine Or.inl ⟨.jobj (recordFieldsScrape d pre genresL
                    ++ credits_data_scrape net id), ?_⟩
                  simp [enrichOneScrape, hq, hd, hp, hg]

/-- A truthy cached record carrying the key short-circuits the critics
enricher. -/
theorem enrichOneCritics_hit (net : TmdbNet) (cache : Jobj) (id : Int)
    (cached : JVal) (hq : objGet cache (toString id) = some cached)
    (ht : truthy cached = true)
    (hk : pyInDirectedKey cached = .ok true) :
    enrichOneCritics net cache id = .ok ⟨some cached, cache, 0, 0⟩ := by
  simp [enrichOneCritics, hq, ht, hk]

/-- Any successful outcome of the critics fetch path either skipped the row
(cache untouched, no record) or wrote a freshly assembled record. -/
theorem criticsFetch_ok_shape (net : TmdbNet) (cache : Jobj) (id : Int)
    (res : EnrichCriticsResult)
    (h : criticsFetch net cache id = .ok res) :
    res = ⟨none, cache, 1, 1⟩ ∨
    (∃ d cc ol g cr,
      res = ⟨some (.jobj (recordFieldsCritics d cc ol g cr)),
             objSet cache (toString id)
               (.jobj (recordFieldsCritics d cc ol g cr)), 1, 1⟩) := by
  unfold criticsFetch at h
  cases hd : net.details id with
  | none =>
      rw [hd] at h
      simp only [Except.ok.injEq] at h
      exact Or.inl h.symm
  | some d =>
      rw [hd] at h
      simp only at h
      cases hpcs : iterDicts (objGetD d "production_countries" (.jarr [])) with
      | error e => rw [hpcs] at h; cases h
      | ok pcs =>
          rw [hpcs] at h
          simp only at h
          cases hcrew : iterDicts (match net.credits id with
            | none => JVal.jarr []
            | some c => objGetD c "crew" (.jarr [])) with
          | error e => rw [hcrew] at h; cases h
          | ok crew =>
              rw [hcrew] at h
              simp only at h
              cases hg : iterDicts (objGetD d "genres" (.jarr [])) with
              | error e => rw [hg] at h; cases h
              | ok genresL =>
                  rw [hg] at h
                  simp only [Except.ok.injEq] at h
                  exact Or.inr ⟨d, pluckTruthy "iso_3166_1" pcs,
                    objGetD d "original_language" (.jstr ""), genresL, crew,
                    h.symm⟩

/-- The critics enricher either errors (uncaught shape crash), reuses a
truthy cached record carrying the key, or went down the fetch path. -/
theorem enrichOneCritics_cases (net : TmdbNet) (cache : Jobj) (id : Int)
    (res : EnrichCriticsResult)
    (h : enrichOneCritics net cache id = .ok res) :
    (∃ cached, objGet cache (toString id) = some cached ∧
      truthy cached = true ∧ pyInDirectedKey cached = .ok true ∧
      res = ⟨some cached, cache, 0, 0⟩) ∨
    criticsFetch net cache id = .ok res := by
  unfold enrichOneCritics at h
  cases hq : objGet cache (toString id) with
  | none => rw [hq] at h; exact Or.inr h
  | some cached =>
      rw [hq] at h
      by_cases ht : truthy cached = true
      · simp only [ht, if_true] at h
        cases hk : pyInDirectedKey cached with
        | error u => rw [hk] at h; cases h
        | ok b =>
            rw [hk] at h
            cases b with
            | true =>
                simp only [Except.ok.injEq] at h
                exact Or.inl ⟨cached, rfl, ht, hk, h.symm⟩
            | false => exact Or.inr h
      · simp only [Bool.not_eq_true] at ht
        simp only [ht, Bool.false_eq_true, if_false] at h
        exact Or.inr h

/-- C4: once an External Movie ID has a record in the `tmdb_movie_data`
cache after a run of the Metadata Enricher, a second run over the same id
returns exactly that record (byte-identical, the very value compared) and
issues zero details and zero credits requests — for the diary script
(`enrich_with_tmdb`) and the critics script (`enrich`). -/
theorem c4_cached_record_second_run_idempotent :
    (∀ (net net2 : TmdbNet) (cache : Jobj) (id : Int) (v : JVal),
      objGet (enrichOneScrape net cache id).cacheOut (toString id) = some v →
      (enrichOneScrape net cache id).tmdb_data = some v ∧
      enrichOneScrape net2 (enrichOneScrape net cache id).cacheOut id =
        ⟨some v, none, (enrichOneScrape net cache id).cacheOut, 0, 0⟩) ∧
    (∀ (net net2 : TmdbNet) (cache : Jobj) (id : Int)
        (res : EnrichCriticsResult) (v : JVal),
      enrichOneCritics net cache id = .ok res →
      res.tmdb_data = some v →
      objGet res.cacheOut (toString id) = some v →
      enrichOneCritics net2 res.cacheOut id =
        .ok ⟨some v, res.cacheOut, 0, 0⟩) := by
  constructor
  · intro net net2 cache id v hv
    rcases enrichOneScrape_cases net cache id with
      ⟨w, hq, he⟩ | ⟨hq, ⟨r, he⟩ | ⟨hco, htd⟩⟩
    · rw [he] at hv ⊢
      simp only at hv ⊢
      rw [hq] at hv
      simp only [Option.some.injEq] at hv
      subst hv
      exact ⟨rfl, enrichOneScrape_hit net2 cache id w hq⟩
    · rw [he] at hv ⊢
      simp only at hv ⊢
      rw [objGet_objSet] at hv
      simp only [eq_self_iff_true, if_true, Option.some.injEq] at hv
      subst hv
      refine ⟨rfl, ?_⟩
      apply enrichOneScrape_hit
      rw [objGet_objSet]
      simp
    · rw [hco] at hv
      rw [hq] at hv
      cases hv
  · intro net net2 cache id res v hres htd hv
    rcases enrichOneCritics_cases net cache id res hres with
      ⟨cached, hq, ht, hk, he⟩ | hfetch
    · subst he
      simp only at htd hv ⊢
      simp only [Option.some.injEq] at htd
      subst htd
      exact enrichOneCritics_hit net2 cache id cached hv ht hk
    · rcases criticsFetch_ok_shape net cache id res hfetch with
        he | ⟨d, cc, ol, g, cr, he⟩
      · subst he
        simp only at htd
        cases htd
      · subst he
        simp only at htd hv ⊢
        simp only [Option.some.injEq] at htd
        subst htd
        apply enrichOneCritics_hit
        · rw [objGet_objSet]
          simp
        · exact recordFieldsCritics_truthy d cc ol g cr
        · rw [show pyInDirectedKey (.jobj (recordFieldsCritics d cc ol g cr))
              = .ok (objHas (recordFieldsCritics d cc ol g cr)
                "directed_by_woman") from rfl,
            recordFieldsCritics_hasKey]

/-- A TMDb network where every request raises. -/
def tmdbDown : TmdbNet := ⟨fun _ => none, fun _ => none⟩

/-- Witness for C4 at concrete inputs: with id 7 already cached, a second
run of either enricher returns the cached record over a dead network with
zero requests. -/
theorem c4_cached_record_second_run_idempotent_witness :
    ((enrichOneScrape tmdbDown [("7", JVal.jnum 42)] 7).tmdb_data
        = some (.jnum 42) ∧
      enrichOneScrape tmdbDown
          (enrichOneScrape tmdbDown [("7", JVal.jnum 42)] 7).cacheOut 7 =
        ⟨some (.jnum 42), none,
         (enrichOneScrape tmdbDown [("7", JVal.jnum 42)] 7).cacheOut,
         0, 0⟩) ∧
    enrichOneCritics tmdbDown
        [("7", JVal.jobj [("directed_by_woman", JVal.jbool true)])] 7 =
      .ok ⟨some (.jobj [("directed_by_woman", .jbool true)]),
           [("7", JVal.jobj [("directed_by_woman", JVal.jbool true)])],
           0, 0⟩ :=
  ⟨c4_cached_record_second_run_idempotent.1 tmdbDown tmdbDown
      [("7", JVal.jnum 42)] 7 (.jnum 42) rfl,
   c4_cached_record_second_run_idempotent.2 tmdbDown tmdbDown
      [("7", JVal.jobj [("directed_by_woman", JVal.jbool true)])] 7
      ⟨some (.jobj [("directed_by_woman", .jbool true)]),
       [("7", JVal.jobj [("directed_by_woman", JVal.jbool true)])], 0, 0⟩
      (.jobj [("directed_by_woman", .jbool true)]) rfl rfl rfl⟩

/-- Python `x == s` holds exactly for the equal string value. -/
theorem pyEqStr_iff (v : JVal) (s : String) :
    pyEqStr v s = true ↔ v = .jstr s := by
  cases v <;> simp [pyEqStr]

/-- `s in [c.get(key) for c in items if c.get(key)]` holds exactly when some
item binds `key` to the string `s` (for nonempty `s`). -/
theorem pyHasStr_pluckTruthy (pcs : List Jobj) (key s : String)
    (hs : s ≠ "") :
    pyHasStr (pluckTruthy key pcs) s = true ↔
      ∃ c ∈ pcs, objGet c key = some (.jstr s) := by
  unfold pyHasStr pluckTruthy
  rw [List.any_eq_true]
  constructor
  · rintro ⟨v, hv, hp⟩
    rw [List.mem_filterMap] at hv
    obtain ⟨c, hc, hf⟩ := hv
    rw [pyEqStr_iff] at hp
    subst hp
    cases hg : objGet c key with
    | none => rw [hg] at hf; cases hf
    | some w =>
        rw [hg] at hf
        by_cases ht : truthy w = true
        · simp only [ht, if_true, Option.some.injEq] at hf
          subst hf
          exact ⟨c, hc, hg⟩
        · simp only [Bool.not_eq_true] at ht
          simp [ht] at hf
  · rintro ⟨c, hc, hg⟩
    refine ⟨.jstr s, ?_, by rw [pyEqStr_iff]⟩
    rw [List.mem_filterMap]
    refine ⟨c, hc, ?_⟩
    rw [hg]
    simp [truthy, hs]

/-- `person.get("job") == j` holds exactly when the job is the string `j`. -/
theorem jobIs_iff (p : Jobj) (j : String) :
    jobIs p j = true ↔ objGet p "job" = some (.jstr j) := by
  unfold jobIs
  cases hg : objGet p "job" with
  | none => simp
  | some v => cases v <;> simp [pyEqStr]

/-- `d.get("gender") == 1` holds exactly for the decoded values `1` and
`true` (Python `True == 1`). -/
theorem genderIsOne_iff (p : Jobj) :
    genderIsOne p = true ↔
      (objGet p "gender" = some (.jnum 1) ∨
       objGet p "gender" = some (.jbool true)) := by
  unfold genderIsOne
  cases hg : objGet p "gender" with
  | none => simp
  | some v => cases v <;> simp

/-- The rebuilt `{"name", "gender"}` entry keeps the gender test. -/
theorem genderIsOne_entryNameGender (p : Jobj) :
    genderIsOne (entryNameGender p) = genderIsOne p := by
  unfold genderIsOne entryNameGender objGetD
  cases hg : objGet p "gender" with
  | none => simp [hg, objGet, List.lookup]
  | some v => cases v <;> simp [hg, objGet, List.lookup]

/-- The rebuilt `{"name", "job", "gender"}` entry keeps the gender test. -/
theorem genderIsOne_entryNameJobGender (p : Jobj) :
    genderIsOne (entryNameJobGender p) = genderIsOne p := by
  unfold genderIsOne entryNameJobGender objGetD
  cases hg : objGet p "gender" with
  | none => simp [hg, objGet, List.lookup]
  | some v => cases v <;> simp [hg, objGet, List.lookup]

/-- `person.get("job") in writer_jobs`, spelt out. -/
theorem writerJob_iff (p : Jobj) :
    writer_jobs.any (fun j => jobIs p j) = true ↔
      (objGet p "job" = some (.jstr "Writer") ∨
       objGet p "job" = some (.jstr "Screenplay") ∨
       objGet p "job" = some (.jstr "Story") ∨
       objGet p "job" = some (.jstr "Characters")) := by
  simp [writer_jobs, jobIs_iff]

/-- C9: in the derived record, `is_american` holds iff "US" is among the
production-country codes, `is_english` holds iff the original language code
is the string "en", and the two woman flags hold iff some crew member has
the matching case-sensitive job title and a gender value Python-equal
to 1. -/
theorem c9_derived_boolean_characterisation :
    (∀ (d : Jobj) (pcs : List Jobj) (pre : DetailsPre),
      iterDicts (objGetD d "production_countries" (.jarr [])) = .ok pcs →
      detailsPre d = .ok pre →
      (pre.is_american = true ↔
        ∃ c ∈ pcs, objGet c "iso_3166_1" = some (.jstr "US"))) ∧
    (∀ (d : Jobj) (pre : DetailsPre), detailsPre d = .ok pre →
      (pre.is_english = true ↔
        objGetD d "original_language" (.jstr "") = .jstr "en")) ∧
    (∀ crew : List Jobj,
      objGet (creditsFieldsFromCrew crew) "directed_by_woman"
          = some (.jbool true) ↔
        ∃ p ∈ crew, objGet p "job" = some (.jstr "Director") ∧
          (objGet p "gender" = some (.jnum 1) ∨
           objGet p "gender" = some (.jbool true))) ∧
    (∀ crew : List Jobj,
      objGet (creditsFieldsFromCrew crew) "written_by_woman"
          = some (.jbool true) ↔
        ∃ p ∈ crew,
          (objGet p "job" = some (.jstr "Writer") ∨
           objGet p "job" = some (.jstr "Screenplay") ∨
           objGet p "job" = some (.jstr "Story") ∨
           objGet p "job" = some (.jstr "Characters")) ∧
          (objGet p "gender" = some (.jnum 1) ∨
           objGet p "gender" = some (.jbool true))) := by
  have hpre_shape : ∀ (d : Jobj) (pre : DetailsPre), detailsPre d = .ok pre →
      ∃ pcs langs,
        iterDicts (objGetD d "production_countries" (.jarr [])) = .ok pcs ∧
        iterDicts (objGetD d "spoken_languages" (.jarr [])) = .ok langs ∧
        pre.is_american = pyHasStr (pluckTruthy "iso_3166_1" pcs) "US" ∧
        pre.is_english =
          pyEqStr (objGetD d "original_language" (.jstr "")) "en" := by
    intro d pre hpre
    unfold detailsPre at hpre
    cases hpcs : iterDicts (objGetD d "production_countries" (.jarr [])) with
    | error e => rw [hpcs] at hpre; cases hpre
    | ok pcs =>
        rw [hpcs] at hpre
        cases hlangs : iterDicts (objGetD d "spoken_languages" (.jarr [])) with
        | error e => rw [hlangs] at hpre; cases hpre
        | ok langs =>
            rw [hlangs] at hpre
            simp only [Except.ok.injEq] at hpre
            subst hpre
            exact ⟨pcs, langs, rfl, rfl, rfl, rfl⟩
  refine ⟨?_, ?_, ?_, ?_⟩
  · intro d pcs pre hpcs hpre
    obtain ⟨pcs2, langs, hpcs2, _, ham, _⟩ := hpre_shape d pre hpre
    rw [hpcs] at hpcs2
    simp only [Except.ok.injEq] at hpcs2
    subst hpcs2
    rw [ham]
    exact pyHasStr_pluckTruthy pcs "iso_3166_1" "US" (by decide)
  · intro d pre hpre
    obtain ⟨pcs, langs, _, _, _, hen⟩ := hpre_shape d pre hpre
    rw [hen]
    exact pyEqStr_iff _ "en"
  · intro crew
    have hget : objGet (creditsFieldsFromCrew crew) "directed_by_woman"
        = some (.jbool
          (((crew.filter (fun p => jobIs p "Director")).map
            entryNameGender).any genderIsOne)) := by
      simp [creditsFieldsFromCrew, objGet, List.lookup]
    rw [hget]
    simp only [Option.some.injEq, JVal.jbool.injEq]
    rw [List.any_eq_true]
    constructor
    · rintro ⟨e, he, hg⟩
      rw [List.mem_map] at he
      obtain ⟨p, hp, rfl⟩ := he
      rw [List.mem_filter] at hp
      rw [genderIsOne_entryNameGender] at hg
      exact ⟨p, hp.1, (jobIs_iff p _).mp hp.2, (genderIsOne_iff p).mp hg⟩
    · rintro ⟨p, hp, hjob, hgen⟩
      refine ⟨entryNameGender p, ?_, ?_⟩
      · rw [List.mem_map]
        exact ⟨p, List.mem_filter.mpr ⟨hp, (jobIs_iff p _).mpr hjob⟩, rfl⟩
      · rw [genderIsOne_entryNameGender]
        exact (genderIsOne_iff p).mpr hgen
  · intro crew
    have hget : objGet (creditsFieldsFromCrew crew) "written_by_woman"
        = some (.jbool
          (((crew.filter (fun p => writer_jobs.any (fun j => jobIs p j))).map
            entryNameJobGender).any genderIsOne)) := by
      simp [creditsFieldsFromCrew, objGet, List.lookup]
    rw [hget]
    simp only [Option.some.injEq, JVal.jbool.injEq]
    rw [List.any_eq_true]
    constructor
    · rintro ⟨e, he, hg⟩
      rw [List.mem_map] at he
      obtain ⟨p, hp, rfl⟩ := he
      rw [List.mem_filter] at hp
      rw [genderIsOne_entryNameJobGender] at hg
      exact ⟨p, hp.1, (writerJob_iff p).mp hp.2, (genderIsOne_iff p).mp hg⟩
    · rintro ⟨p, hp, hjob, hgen⟩
      refine ⟨entryNameJobGender p, ?_, ?_⟩
      · rw [List.mem_map]
        exact ⟨p, List.mem_filter.mpr ⟨hp, (writerJob_iff p).mpr hjob⟩, rfl⟩
      · rw [genderIsOne_entryNameJobGender]
        exact (genderIsOne_iff p).mpr hgen

/-- Witness for C9 at the spec's own example: details with production
country US and original language "ko" derive `is_american` and not
`is_english`. -/
theorem c9_derived_boolean_characterisation_witness :
    ((DetailsPre.mk [.jstr "US"] [] [] [] (.jstr "ko") true
        false).is_american = true ↔
      ∃ c ∈ [[("iso_3166_1", JVal.jstr "US")]],
        objGet c "iso_3166_1" = some (.jstr "US")) ∧
    ((DetailsPre.mk [.jstr "US"] [] [] [] (.jstr "ko") true
        false).is_english = true ↔
      objGetD [("production_countries",
          JVal.jarr [.jobj [("iso_3166_1", .jstr "US")]]),
        ("original_language", JVal.jstr "ko")] "original_language"
          (.jstr "") = .jstr "en") :=
  ⟨c9_derived_boolean_characterisation.1
      [("production_countries", .jarr [.jobj [("iso_3166_1", .jstr "US")]]),
       ("original_language", .jstr "ko")]
      [[("iso_3166_1", JVal.jstr "US")]]
      (DetailsPre.mk [.jstr "US"] [] [] [] (.jstr "ko") true false) rfl rfl,
   c9_derived_boolean_characterisation.2.1
      [("production_countries", .jarr [.jobj [("iso_3166_1", .jstr "US")]]),
       ("original_language", .jstr "ko")]
      (DetailsPre.mk [.jstr "US"] [] [] [] (.jstr "ko") true false) rfl⟩

/-!  ## Bounded concurrent scrape pass

Pass 1 of `enrich_with_tmdb` in `scrape_tmdb_ids.py` (lines 474-502)
submits one `scrape_one` per indexed film to a 10-worker pool and folds
results into the index in completion order.  Each worker touches only its
own key (its cache read is at its own URL, and the aggregator writes other
URLs), so every thread interleaving is equivalent to folding the per-item
results in some permutation of the key list; the embedding quantifies over
that completion order.
-/

/-- One film record of `build_index` in `scrape_tmdb_ids.py`
(`tmdb_error` is a key only error handling adds — `none` models absence). -/
structure Entry where
  letterboxd_url : String
  tmdb_movie_id : Option Int
  tags : List JVal
  notes : String
  attrs : Jobj
  is_in_criterion_collection : Bool
  tmdb_error : Option String

/-- The fresh record `build_index` creates for a URL. -/
def build_index_entry (url : String) : Entry :=
  { letterboxd_url := url, tmdb_movie_id := none, tags := [], notes := "",
    attrs := [], is_in_criterion_collection := false, tmdb_error := none }

/-- Page-scrape oracle: the TMDb id embedded in the film page, or the
raised exception text (`requests.HTTPError`, `CloudflareBlockedError` or
`ValueError` from `letterboxd_film_to_tmdb_id`). -/
structure PageNet where
  scrape : String → Except String Int

/-- `scrape_one` from `enrich_with_tmdb` (lines 477-486): a cached int (in
Python a bool is also an int) short-circuits the page fetch; every
exception is caught into the third component. -/
def scrape_one (filmToTmdb : Jobj) (net : PageNet) (url : String) :
    String × Option Int × Option String :=
  match objGet filmToTmdb url with
  | some (.jnum n) => (url, some n, none)
  | some (.jbool b) => (url, some (if b then 1 else 0), none)
  | _ =>
      match net.scrape url with
      | .ok n => (url, some n, none)
      | .error e => (url, none, some e)

/-- The aggregation step of the `as_completed` loop (lines 492-501):
`tmdb_movie_id` on success plus a first-write into `film_to_tmdb`; a truthy
error string sets `tmdb_error`. -/
def applyScrapeResult (index : String → Entry) (ftt : Jobj)
    (r : String × Option Int × Option String) :
    (String → Entry) × Jobj :=
  match r with
  | (url, some n, _) =>
      (fun u => if u = url then { index url with tmdb_movie_id := some n }
                else index u,
       if objHas ftt url then ftt else objSet ftt url (.jnum n))
  | (url, none, some e) =>
      if e = "" then (index, ftt)
      else (fun u => if u = url then { index url with tmdb_error := some e }
                     else index u,
            ftt)
  | (_, none, none) => (index, ftt)

/-- Pass 1 of `enrich_with_tmdb` folded over one completion order. -/
def scrapePass (net : PageNet) (index : String → Entry) (ftt : Jobj) :
    List String → (String → Entry) × Jobj
  | [] => (index, ftt)
  | url :: rest =>
      let st := applyScrapeResult index ftt (scrape_one ftt net url)
      scrapePass net st.1 st.2 rest

/-- `scrape_one` reads the shared cache only at its own URL. -/
theorem scrape_one_congr (f1 f2 : Jobj) (net : PageNet) (url : String)
    (h : objGet f1 url = objGet f2 url) :
    scrape_one f1 net url = scrape_one f2 net url := by
  unfold scrape_one
  rw [h]

/-- `scrape_one` tags its result with its own URL. -/
theorem scrape_one_fst (f : Jobj) (net : PageNet) (url : String) :
    (scrape_one f net url).1 = url := by
  unfold scrape_one
  cases objGet f url with
  | some w => cases w <;> (try rfl) <;> (cases net.scrape url <;> rfl)
  | none => cases net.scrape url <;> rfl

/-- The folded entry at a result's own URL depends only on that key's
previous entry and the result itself. -/
theorem applyScrapeResult_self_congr (i1 i2 : String → Entry)
    (f1 f2 : Jobj) (r : String × Option Int × Option String) (x : String)
    (hi : i1 x = i2 x) (hr : r.1 = x) :
    (applyScrapeResult i1 f1 r).1 x = (applyScrapeResult i2 f2 r).1 x := by
  rcases r with ⟨u0, oid, oerr⟩
  simp only at hr
  subst hr
  cases oid with
  | some n => simp [applyScrapeResult, hi]
  | none =>
      cases oerr with
      | some e =>
          by_cases he : e = "" <;> simp [applyScrapeResult, he, hi]
      | none => simp [applyScrapeResult, hi]

/-- Folding one result leaves every other index key unchanged. -/
theorem applyScrapeResult_other_entry (index : String → Entry) (ftt : Jobj)
    (r : String × Option Int × Option String) (x : String)
    (hx : r.1 ≠ x) :
    (applyScrapeResult index ftt r).1 x = index x := by
  rcases r with ⟨url, oid, oerr⟩
  simp only at hx
  have hxs : ¬ x = url := fun e => hx e.symm
  cases oid with
  | some n => simp [applyScrapeResult, hxs]
  | none =>
      cases oerr with
      | some e =>
          by_cases he : e = "" <;> simp [applyScrapeResult, hxs, he]
      | none => simp [applyScrapeResult]

/-- Folding one result leaves every other cache key unchanged. -/
theorem applyScrapeResult_other_cache (index : String → Entry) (ftt : Jobj)
    (r : String × Option Int × Option String) (x : String)
    (hx : r.1 ≠ x) :
    objGet (applyScrapeResult index ftt r).2 x = objGet ftt x := by
  rcases r with ⟨url, oid, oerr⟩
  simp only at hx
  cases oid with
  | some n =>
      simp only [applyScrapeResult]
      by_cases hh : objHas ftt url = true
      · simp [hh]
      · simp only [hh, Bool.false_eq_true, if_false]
        rw [objGet_objSet]
        simp [hx]
  | none =>
      cases oerr with
      | some e =>
          by_cases he : e = "" <;> simp [applyScrapeResult, he]
      | none => simp [applyScrapeResult]

/-- A URL not in the completion order keeps its index entry. -/
theorem scrapePass_not_mem (net : PageNet) (order : List String) :
    ∀ (index : String → Entry) (ftt : Jobj) (u : String), u ∉ order →
      (scrapePass net index ftt order).1 u = index u := by
  induction order with
  | nil => intro index ftt u _; rfl
  | cons v rest ih =>
      intro index ftt u hu
      rw [List.mem_cons, not_or] at hu
      unfold scrapePass
      rw [ih _ _ u hu.2, applyScrapeResult_other_entry]
      rw [scrape_one_fst]
      exact fun e => hu.1 e.symm

/-- C7: for every completion order of the bounded concurrent scrape stage,
every indexed film ends up with exactly the outcome of its own scrape
against the initial shared cache — other items' failures neither remove it
nor change it; a failed item carries `tmdb_error` and a successful one its
`tmdb_movie_id`. -/
theorem c7_partial_failure_isolation :
    ∀ (net : PageNet) (index : String → Entry) (ftt : Jobj)
      (order : List String), order.Nodup →
      ∀ url ∈ order,
        (scrapePass net index ftt order).1 url =
          (applyScrapeResult index ftt (scrape_one ftt net url)).1 url ∧
        (∀ e, e ≠ "" → scrape_one ftt net url = (url, none, some e) →
          (scrapePass net index ftt order).1 url =
            { index url with tmdb_error := some e }) ∧
        (∀ n, scrape_one ftt net url = (url, some n, none) →
          (scrapePass net index ftt order).1 url =
            { index url with tmdb_movie_id := some n }) := by
  intro net index ftt order hnd url hmem
  have main : ∀ (order : List String), order.Nodup →
      ∀ (index : String → Entry) (ftt : Jobj), url ∈ order →
        (scrapePass net index ftt order).1 url =
          (applyScrapeResult index ftt (scrape_one ftt net url)).1 url := by
    intro order
    induction order with
    | nil => intro _ _ _ h; cases h
    | cons v rest ih =>
        intro hnd index2 ftt2 hmem2
        rw [List.nodup_cons] at hnd
        rcases List.mem_cons.mp hmem2 with rfl | hrest
        · unfold scrapePass
          exact scrapePass_not_mem net rest _ _ url hnd.1
        · have hne : url ≠ v := fun e => hnd.1 (e ▸ hrest)
          have hvne : (scrape_one ftt2 net v).1 ≠ url := by
            rw [scrape_one_fst]; exact fun e => hne e.symm
          unfold scrapePass
          rw [ih hnd.2 _ _ hrest]
          have hcache := applyScrapeResult_other_cache index2 ftt2
            (scrape_one ftt2 net v) url hvne
          rw [scrape_one_congr _ _ net url hcache]
          exact applyScrapeResult_self_congr _ index2 _ ftt2
            (scrape_one ftt2 net url) url
            (applyScrapeResult_other_entry index2 ftt2 _ url hvne)
            (scrape_one_fst ftt2 net url)
  have h1 := main order hnd index ftt hmem
  refine ⟨h1, ?_, ?_⟩
  · intro e he hr
    rw [h1, hr]
    simp [applyScrapeResult, he]
  · intro n hr
    rw [h1, hr]
    simp [applyScrapeResult]

/-- Witness for C7 at a concrete input: of three films, the middle scrape
fails; it ends up with an error marker while its neighbours keep their
successful ids. -/
theorem c7_partial_failure_isolation_witness :
    (scrapePass ⟨fun u => if u = "b" then .error "boom" else .ok 1⟩
        build_index_entry [] ["a", "b", "c"]).1 "b" =
      { build_index_entry "b" with tmdb_error := some "boom" } ∧
    (scrapePass ⟨fun u => if u = "b" then .error "boom" else .ok 1⟩
        build_index_entry [] ["a", "b", "c"]).1 "a" =
      { build_index_entry "a" with tmdb_movie_id := some 1 } :=
  ⟨(c7_partial_failure_isolation
      ⟨fun u => if u = "b" then .error "boom" else .ok 1⟩
      build_index_entry [] ["a", "b", "c"] (by decide) "b"
      (by decide)).2.1 "boom" (by decide) rfl,
   (c7_partial_failure_isolation
      ⟨fun u => if u = "b" then .error "boom" else .ok 1⟩
      build_index_entry [] ["a", "b", "c"] (by decide) "a"
      (by decide)).2.2 1 rfl⟩

/-!  ## List-membership indexer -/

/-- `mark_list_membership` from `scrape_tmdb_ids.py` (lines 411-418), as a
per-key map over the index: a full-URL set test only. -/
def mark_list_membership (index : String → Entry) (list_urls : List String) :
    String → Entry :=
  fun url =>
    if url ∈ list_urls then
      { index url with is_in_criterion_collection := true }
    else index url

/-- `extract_slug` from `enrich_critics_list.py`:
`re.search(r"/film/([^/]+)", url)` — case-sensitive, first position with a
nonempty capture. -/
def searchSlugLoose : List Char → Option (List Char)
  | [] => none
  | c :: rest =>
      match matchLit "/film/".data (c :: rest) with
      | some after =>
          let seg := after.takeWhile (fun ch => ch ≠ '/')
          if seg = [] then searchSlugLoose rest else some seg
      | none => searchSlugLoose rest

/-- `"is_criterion": slug in criterion_slugs` of `enrich_critics_list.py`
(line 309), with `slug = extract_slug(canonical) or ""`. -/
def critics_is_criterion (canonical : List Char)
    (criterion_slugs : List (List Char)) : Bool :=
  criterion_slugs.contains ((searchSlugLoose canonical).getD [])

/-- Case-insensitive literal matching for `LETTERBOXD_FILM_RE` of
`enrich_curated_lists.py` (compiled with `re.I`; the unescaped `.` in
`letterboxd.com` is a wildcard, written `none`). -/
def matchLitCI : List (Option Char) → List Char → Option (List Char)
  | [], cs => some cs
  | _ :: _, [] => none
  | p :: ps, c :: cs =>
      match p with
      | none => matchLitCI ps cs
      | some pc => if c.toLower = pc then matchLitCI ps cs else none

/-- `film/([^/]+)` with the trailing `/?` of the curated pattern: the slug
is the maximal nonempty run of non-slash characters, case preserved. -/
def matchCuratedTail (cs : List Char) : Option (List Char) :=
  match matchLitCI (['f', 'i', 'l', 'm', '/'].map some) cs with
  | none => none
  | some rest =>
      let seg := rest.takeWhile (fun ch => ch ≠ '/')
      if seg = [] then none else some seg

/-- `(?:[^/]+/)?film/([^/]+)/?` with Python's backtracking order. -/
def matchCuratedAfterHost (cs : List Char) : Option (List Char) :=
  match takeSeg cs with
  | some (_, rest) =>
      match matchCuratedTail rest with
      | some slug => some slug
      | none => matchCuratedTail cs
  | none => matchCuratedTail cs

/-- `LETTERBOXD_FILM_RE.match` (anchored at the start,
`https?://letterboxd.com/(?:[^/]+/)?film/([^/]+)/?` under `re.I`). -/
def matchCuratedAt (cs : List Char) : Option (List Char) :=
  match matchLitCI (['h', 't', 't', 'p'].map some) cs with
  | none => none
  | some rest =>
      let rest1 := match rest with
        | c :: t => if c.toLower = 's' then t else c :: t
        | [] => []
      match matchLitCI ((([':', '/', '/', 'l', 'e', 't', 't', 'e', 'r',
          'b', 'o', 'x', 'd'].map some) ++ [none])
          ++ (['c', 'o', 'm', '/'].map some)) rest1 with
      | none => none
      | some rest2 => matchCuratedAfterHost rest2

/-- Python `s.rstrip("/")`. -/
def rstripSlashes (cs : List Char) : List Char :=
  (cs.reverse.dropWhile (fun c => c = '/')).reverse

/-- `normalize_url` from `enrich_curated_lists.py`: strip, drop trailing
slashes, rebuild the anchored match as the canonical URL (slug case
preserved), otherwise return the cleaned string. -/
def normalize_url (url : List Char) : List Char :=
  if url = [] then []
  else
    let cleaned := rstripSlashes (stripChars url)
    match matchCuratedAt cleaned with
    | some slug => "https://letterboxd.com/film/".data ++ slug ++ ['/']
    | none => cleaned

/-- `extract_slug` from `enrich_curated_lists.py`: the anchored match's
slug, lower-cased, or the empty string. -/
def extract_slug_curated (url : List Char) : List Char :=
  match matchCuratedAt url with
  | some slug => slug.map Char.toLower
  | none => []

/-- Lines 257-263 of `enrich_curated_lists.py` for one film whose short
link is already expanded: lower-cased full-URL test against the (lowered)
reference URL set, falling back to the (lowered) slug set. -/
def curated_is_by_black_director
    (black_url_set black_slug_set : List (List Char))
    (expanded_url : List Char) : Bool :=
  let normalized_url := normalize_url expanded_url
  let slug := extract_slug_curated normalized_url
  black_url_set.contains (normalized_url.map Char.toLower) ||
    (!slug.isEmpty && black_slug_set.contains slug)

/-- Modelled from the spec's words, for comparison only (C8): a
case-sensitive full-canonical-identifier match attempted first, then a
case-insensitive slug fallback. -/
def claimed_membership_flag (url_set slug_set : List (List Char))
    (canonical_url slug : List Char) : Bool :=
  url_set.contains canonical_url ||
    (slug_set.map (fun s => s.map Char.toLower)).contains
      (slug.map Char.toLower)

/-- C8 as stated is false: the curated script's full-URL comparison is
case-insensitive (both sides lower-cased), so a film whose canonical URL
differs from the reference URL only in case is flagged, while the claimed
case-sensitive URL comparison (with empty slug set) would not flag it. -/
theorem c8_counterexample_url_match_case_insensitive :
    curated_is_by_black_director
        ["https://letterboxd.com/film/rear-window/".data] []
        "https://letterboxd.com/film/REAR-WINDOW/".data = true ∧
    claimed_membership_flag
        ["https://letterboxd.com/film/rear-window/".data] []
        (normalize_url "https://letterboxd.com/film/REAR-WINDOW/".data)
        (extract_slug_curated
          (normalize_url "https://letterboxd.com/film/REAR-WINDOW/".data))
      = false := by
  constructor <;> decide

/-- C8 amended: only the curated-lists script attempts a full-URL match
first with a slug fallback, and there both comparisons are case-insensitive
(both sides lower-cased); the diary script flags by case-sensitive full-URL
set membership only, with no slug fallback; the critics script flags by
case-sensitive slug membership only. -/
theorem c8_amended_membership_matching :
    (∀ (index : String → Entry) (list_urls : List String) (url : String),
      ((mark_list_membership index list_urls url).is_in_criterion_collection
        = (decide (url ∈ list_urls) ||
           (index url).is_in_criterion_collection)) ∧
      (url ∉ list_urls → mark_list_membership index list_urls url
        = index url)) ∧
    (∀ (uset sset : List (List Char)) (eurl : List Char),
      curated_is_by_black_director uset sset eurl = true ↔
        ((normalize_url eurl).map Char.toLower ∈ uset ∨
          (extract_slug_curated (normalize_url eurl) ≠ [] ∧
           extract_slug_curated (normalize_url eurl) ∈ sset))) ∧
    (∀ (canonical : List Char) (slugs : List (List Char)),
      critics_is_criterion canonical slugs = true ↔
        (searchSlugLoose canonical).getD [] ∈ slugs) := by
  refine ⟨?_, ?_, ?_⟩
  · intro index lurls url
    constructor
    · by_cases h : url ∈ lurls <;> simp [mark_list_membership, h]
    · intro h
      simp [mark_list_membership, h]
  · intro uset sset eurl
    simp [curated_is_by_black_director]
  · intro canonical slugs
    simp [critics_is_criterion]

/-- Witness for the amended C8 at concrete inputs: an unlisted URL keeps
its record unchanged, and a case-variant URL is flagged by the curated
script through the lowered-URL set test. -/
theorem c8_amended_membership_matching_witness :
    mark_list_membership build_index_entry
        ["https://letterboxd.com/film/heat-1995/"]
        "https://letterboxd.com/film/alien/"
      = build_index_entry "https://letterboxd.com/film/alien/" ∧
    (curated_is_by_black_director
        ["https://letterboxd.com/film/rear-window/".data] []
        "https://letterboxd.com/film/REAR-WINDOW/".data = true ↔
      ((normalize_url
          "https://letterboxd.com/film/REAR-WINDOW/".data).map Char.toLower
          ∈ ["https://letterboxd.com/film/rear-window/".data] ∨
        (extract_slug_curated (normalize_url
            "https://letterboxd.com/film/REAR-WINDOW/".data) ≠ [] ∧
         extract_slug_curated (normalize_url
            "https://letterboxd.com/film/REAR-WINDOW/".data) ∈ []))) :=
  ⟨(c8_amended_membership_matching.1 build_index_entry
      ["https://letterboxd.com/film/heat-1995/"]
      "https://letterboxd.com/film/alien/").2 (by decide),
   c8_amended_membership_matching.2.1
      ["https://letterboxd.com/film/rear-window/".data] []
      "https://letterboxd.com/film/REAR-WINDOW/".data⟩

/-!  ## The identifier normalizer on structured inputs (C1) -/

theorem takeWhile_append_all (p : Char → Bool) :
    ∀ (a b : List Char), (∀ c ∈ a, p c = true) →
      (a ++ b).takeWhile p = a ++ b.takeWhile p := by
  intro a
  induction a with
  | nil => intro b _; rfl
  | cons c t ih =>
      intro b h
      rw [List.cons_append, List.takeWhile_cons, if_pos (h c (by simp)),
        ih b (fun x hx => h x (by simp [hx])), List.cons_append]

theorem dropWhile_append_all (p : Char → Bool) :
    ∀ (a b : List Char), (∀ c ∈ a, p c = true) →
      (a ++ b).dropWhile p = b.dropWhile p := by
  intro a
  induction a with
  | nil => intro b _; rfl
  | cons c t ih =>
      intro b h
      rw [List.cons_append, List.dropWhile_cons, if_pos (h c (by simp))]
      exact ih b (fun x hx => h x (by simp [hx]))

theorem takeWhile_all_eq_self (p : Char → Bool) (a : List Char)
    (h : ∀ c ∈ a, p c = true) : a.takeWhile p = a := by
  have := takeWhile_append_all p a [] h
  simpa using this

theorem dropWhile_all_eq_self (p : Char → Bool) (a : List Char)
    (h : ∀ c ∈ a, p c = false) : a.dropWhile p = a := by
  cases a with
  | nil => rfl
  | cons c t =>
      rw [List.dropWhile_cons, if_neg]
      simp [h c (by simp)]

theorem mem_of_getLast?eq : ∀ (l : List Char) (c : Char),
    l.getLast? = some c → c ∈ l := by
  intro l
  induction l with
  | nil => intro c h; cases h
  | cons a t ih =>
      intro c h
      cases t with
      | nil =>
          simp only [List.getLast?_singleton, Option.some.injEq] at h
          simp [h]
      | cons b u =>
          rw [List.getLast?_cons_cons] at h
          have := ih c h
          simp [this]

theorem matchLit_self : ∀ (pat rest : List Char),
    matchLit pat (pat ++ rest) = some rest := by
  intro pat
  induction pat with
  | nil => intro rest; rfl
  | cons p ps ih =>
      intro rest
      rw [List.cons_append]
      unfold matchLit
      rw [if_pos rfl]
      exact ih rest

theorem matchLit_eq_some : ∀ (pat cs rest : List Char),
    matchLit pat cs = some rest → cs = pat ++ rest := by
  intro pat
  induction pat with
  | nil =>
      intro cs rest h
      simp only [matchLit, Option.some.injEq] at h
      simp [h]
  | cons p ps ih =>
      intro cs rest h
      cases cs with
      | nil => cases h
      | cons c t =>
          unfold matchLit at h
          by_cases hc : c = p
          · rw [if_pos hc] at h
            rw [List.cons_append, hc, ih t rest h]
          · rw [if_neg hc] at h
            cases h

/-- The segment before the first slash is unique. -/
theorem seg_unique : ∀ (a b x y : List Char), '/' ∉ a → '/' ∉ b →
    a ++ '/' :: x = b ++ '/' :: y → a = b ∧ x = y := by
  intro a
  induction a with
  | nil =>
      intro b x y _ hb h
      cases b with
      | nil => simpa using h
      | cons bh bt =>
          rw [List.nil_append, List.cons_append, List.cons.injEq] at h
          exact absurd (h.1 ▸ List.mem_cons_self bh bt) hb
  | cons ah at2 ih =>
      intro b x y ha hb h
      cases b with
      | nil =>
          rw [List.nil_append, List.cons_append, List.cons.injEq] at h
          exact absurd (h.1 ▸ List.mem_cons_self ah at2) ha
      | cons bh bt =>
          rw [List.cons_append, List.cons_append, List.cons.injEq] at h
          obtain ⟨h1, h2⟩ := h
          obtain ⟨e1, e2⟩ := ih bt x y (fun m => ha (List.mem_cons_of_mem _ m))
            (fun m => hb (List.mem_cons_of_mem _ m)) h2
          exact ⟨by rw [h1, e1], e2⟩

/-- A non-`film` slash-free segment never starts a `film/` literal. -/
theorem matchLit_film_fail (s rest : List Char) (hs : '/' ∉ s)
    (hne : s ≠ "film".data) :
    matchLit "film/".data (s ++ '/' :: rest) = none := by
  cases h : matchLit "film/".data (s ++ '/' :: rest) with
  | none => rfl
  | some r =>
      have he := matchLit_eq_some _ _ _ h
      have he2 : s ++ '/' :: rest = "film".data ++ '/' :: r := by
        simpa using he
      obtain ⟨e1, _⟩ := seg_unique s "film".data rest r hs (by decide) he2
      exact absurd e1 hne

/-- `[^/]+/` on a slash-free nonempty segment followed by a slash. -/
theorem takeSeg_append (s rest : List Char) (hne : s ≠ []) (hs : '/' ∉ s) :
    takeSeg (s ++ '/' :: rest) = some (s, rest) := by
  have hall : ∀ c ∈ s, (fun c => decide (c ≠ '/')) c = true := by
    intro c hc
    have hcne : c ≠ '/' := fun e => hs (e ▸ hc)
    simp [hcne]
  have h1 : (s ++ '/' :: rest).takeWhile (fun c => decide (c ≠ '/')) = s := by
    rw [takeWhile_append_all _ s _ hall]
    simp [List.takeWhile_cons]
  have h2 : (s ++ '/' :: rest).dropWhile (fun c => decide (c ≠ '/'))
      = '/' :: rest := by
    rw [dropWhile_append_all _ s _ hall]
    simp [List.dropWhile_cons]
  unfold takeSeg
  rw [h1, h2]
  cases s with
  | nil => exact absurd rfl hne
  | cons c t => rfl

/-- `film/([^/]+)/` succeeds on `film/<s>/...`. -/
theorem matchFilmTail_good (s rest : List Char) (hne : s ≠ [])
    (hs : '/' ∉ s) :
    matchFilmTail ("film/".data ++ (s ++ '/' :: rest)) = some s := by
  simp only [matchFilmTail, matchLit_self, takeSeg_append s rest hne hs]

/-- `film/([^/]+)/` fails on `<s>/...` for a non-`film` segment. -/
theorem matchFilmTail_fail (s rest : List Char) (hs : '/' ∉ s)
    (hne : s ≠ "film".data) :
    matchFilmTail (s ++ '/' :: rest) = none := by
  simp only [matchFilmTail, matchLit_film_fail s rest hs hne]

/-- The optional-user-segment pattern on a user-scoped path. -/
theorem matchAfterHost_user (u s rest : List Char) (hu : u ≠ [])
    (hu2 : '/' ∉ u) (hs : s ≠ []) (hs2 : '/' ∉ s) :
    matchAfterHost (u ++ '/' :: ("film/".data ++ (s ++ '/' :: rest)))
      = some s := by
  simp only [matchAfterHost, takeSeg_append u _ hu hu2,
    matchFilmTail_good s rest hs hs2]

/-- The optional-user-segment pattern on a plain `film/<s>/...` path: the
optional group consumes `film/`, fails on the rest, and backtracks. -/
theorem matchAfterHost_plain (s rest : List Char) (hs : s ≠ [])
    (hs2 : '/' ∉ s) (hne : s ≠ "film".data) :
    matchAfterHost ("film/".data ++ (s ++ '/' :: rest)) = some s := by
  have he : "film/".data ++ (s ++ '/' :: rest)
      = "film".data ++ '/' :: (s ++ '/' :: rest) := by
    have e0 : "film/".data = "film".data ++ ['/'] := by decide
    rw [e0, List.append_assoc]
    rfl
  have hseg : takeSeg ("film/".data ++ (s ++ '/' :: rest))
      = some ("film".data, s ++ '/' :: rest) := by
    rw [he]
    exact takeSeg_append "film".data _ (by decide) (by decide)
  simp only [matchAfterHost, hseg, matchFilmTail_fail s rest hs2 hne,
    matchFilmTail_good s rest hs hs2]

/-- The scheme-and-host part of the film regular expression on a standard
`https://letterboxd.com/` prefix. -/
theorem matchFilmAt_std (body : List Char) :
    matchFilmAt ("https://letterboxd.com/".data ++ body)
      = matchAfterHost body := by
  have e : "https://letterboxd.com/".data ++ body
      = "http".data ++ ('s' :: ("://letterboxd.com/".data ++ body)) := by
    simp
  unfold matchFilmAt matchScheme
  rw [e, matchLit_self]
  simp only
  rw [matchLit_self]

/-- `re.search` returns the match at position 0 when there is one. -/
theorem searchFilm_pos0 (cs : List Char) (slug : List Char) (hne : cs ≠ [])
    (h : matchFilmAt cs = some slug) :
    searchFilm cs = some slug := by
  cases cs with
  | nil => exact absurd rfl hne
  | cons c rest =>
      unfold searchFilm
      rw [h]

/-- `strip()` is the identity on whitespace-free strings. -/
theorem stripChars_eq_self (cs : List Char)
    (h : ∀ c ∈ cs, isPySpace c = false) : stripChars cs = cs := by
  unfold stripChars
  rw [dropWhile_all_eq_self _ cs h, dropWhile_all_eq_self _ cs.reverse
    (fun c hc => h c (List.mem_reverse.mp hc)), List.reverse_reverse]

/-- Dropping the fragment is the identity on `#`-free strings. -/
theorem dropFragment_id (cs : List Char) (h : ∀ c ∈ cs, c ≠ '#') :
    dropFragment cs = cs := by
  unfold dropFragment
  exact takeWhile_all_eq_self _ cs (fun c hc => by simp [h c hc])

/-- Dropping the fragment cuts exactly at the first `#`. -/
theorem dropFragment_cut (a b : List Char) (h : ∀ c ∈ a, c ≠ '#') :
    dropFragment (a ++ '#' :: b) = a := by
  unfold dropFragment
  rw [takeWhile_append_all _ a _ (fun c hc => by simp [h c hc]),
    List.takeWhile_cons]
  simp

theorem forall_mem_append_chars (P : Char → Prop) (a b : List Char)
    (ha : ∀ c ∈ a, P c) (hb : ∀ c ∈ b, P c) : ∀ c ∈ a ++ b, P c := by
  intro c hc
  rcases List.mem_append.mp hc with h | h
  exacts [ha c h, hb c h]

theorem forall_mem_cons_chars (P : Char → Prop) (a : Char) (b : List Char)
    (ha : P a) (hb : ∀ c ∈ b, P c) : ∀ c ∈ a :: b, P c := by
  intro c hc
  rcases List.mem_cons.mp hc with h | h
  exacts [h ▸ ha, hb c h]

/-- `normalize_letterboxd_url` is the identity on nonempty whitespace-free
fragment-free strings ending in a slash. -/
theorem normalize_id (cs : List Char) (hne : cs ≠ [])
    (hws : ∀ c ∈ cs, isPySpace c = false) (hhash : ∀ c ∈ cs, c ≠ '#')
    (hend : cs.getLast? = some '/') :
    normalize_letterboxd_url cs = cs := by
  simp [normalize_letterboxd_url, stripChars_eq_self cs hws, hne,
    dropFragment_id cs hhash, hend]

/-- `normalize_letterboxd_url` appends the missing trailing slash on
nonempty whitespace-free fragment-free strings. -/
theorem normalize_add_slash (cs : List Char) (hne : cs ≠ [])
    (hws : ∀ c ∈ cs, isPySpace c = false) (hhash : ∀ c ∈ cs, c ≠ '#')
    (hend : cs.getLast? ≠ some '/') :
    normalize_letterboxd_url cs = cs ++ ['/'] := by
  simp [normalize_letterboxd_url, stripChars_eq_self cs hws, hne,
    dropFragment_id cs hhash, hend]

/-- `normalize_letterboxd_url` cuts a fragment after a slash-terminated
whitespace-free base. -/
theorem normalize_frag (a b : List Char)
    (hws : ∀ c ∈ a ++ '#' :: b, isPySpace c = false)
    (hhash : ∀ c ∈ a, c ≠ '#') (hend : a.getLast? = some '/') :
    normalize_letterboxd_url (a ++ '#' :: b) = a := by
  have hne : a ++ '#' :: b ≠ [] := by simp
  simp [normalize_letterboxd_url, stripChars_eq_self _ hws, hne,
    dropFragment_cut a b hhash, hend]

theorem getLast?_ne_none (s : List Char) (h : s ≠ []) :
    ∃ c, s.getLast? = some c ∧ c ∈ s := by
  induction s with
  | nil => exact absurd rfl h
  | cons a t ih =>
      cases t with
      | nil => exact ⟨a, List.getLast?_singleton a, by simp⟩
      | cons b u =>
          obtain ⟨c, h1, h2⟩ := ih (by simp)
          exact ⟨c, by rw [List.getLast?_cons_cons]; exact h1,
            List.mem_cons_of_mem a h2⟩

/-- C1 amended: the canonical form, the trailing-slash-free form, the
user-scoped form, a fragment-noise variant, and a query-noise variant whose
query follows the trailing slash all canonicalize to the same single
identifier `https://letterboxd.com/film/<slug>/` — for every slug that is
nonempty, free of `/`, `#` and whitespace, and not the literal `film` (a
query after a `film` slug is mis-captured), and every such user segment.  A
query string attached directly to the slug with no slash in between is
absorbed into the slug instead (see the counterexample). -/
theorem c1_amended_variants_collapse
    (s u f q : List Char)
    (hs1 : s ≠ []) (hsf : s ≠ "film".data)
    (hs2 : ∀ c ∈ s, c ≠ '/' ∧ c ≠ '#' ∧ isPySpace c = false)
    (hu1 : u ≠ [])
    (hu2 : ∀ c ∈ u, c ≠ '/' ∧ c ≠ '#' ∧ isPySpace c = false)
    (hq : ∀ c ∈ q, c ≠ '/' ∧ c ≠ '#' ∧ isPySpace c = false)
    (hf : ∀ c ∈ f, isPySpace c = false) :
    canonicalize_letterboxd_film_url
        ("https://letterboxd.com/film/".data ++ s ++ ['/'])
      = "https://letterboxd.com/film/".data ++ s ++ ['/'] ∧
    canonicalize_letterboxd_film_url
        ("https://letterboxd.com/film/".data ++ s)
      = "https://letterboxd.com/film/".data ++ s ++ ['/'] ∧
    canonicalize_letterboxd_film_url
        ("https://letterboxd.com/".data ++ u ++ "/film/".data ++ s ++ ['/'])
      = "https://letterboxd.com/film/".data ++ s ++ ['/'] ∧
    canonicalize_letterboxd_film_url
        ("https://letterboxd.com/film/".data ++ s ++ ['/'] ++ '#' :: f)
      = "https://letterboxd.com/film/".data ++ s ++ ['/'] ∧
    canonicalize_letterboxd_film_url
        ("https://letterboxd.com/film/".data ++ s ++ ['/'] ++ '?' :: q)
      = "https://letterboxd.com/film/".data ++ s ++ ['/'] := by
  have hsws : ∀ c ∈ s, isPySpace c = false := fun c hc => (hs2 c hc).2.2
  have hshash : ∀ c ∈ s, c ≠ '#' := fun c hc => (hs2 c hc).2.1
  have hsslash : '/' ∉ s := fun hmem => (hs2 '/' hmem).1 rfl
  have huws : ∀ c ∈ u, isPySpace c = false := fun c hc => (hu2 c hc).2.2
  have huhash : ∀ c ∈ u, c ≠ '#' := fun c hc => (hu2 c hc).2.1
  have huslash : '/' ∉ u := fun hmem => (hu2 '/' hmem).1 rfl
  have hqws : ∀ c ∈ q, isPySpace c = false := fun c hc => (hq c hc).2.2
  have hqhash : ∀ c ∈ q, c ≠ '#' := fun c hc => (hq c hc).2.1
  have hqslash : '/' ∉ q := fun hmem => (hq '/' hmem).1 rfl
  have hPws : ∀ c ∈ "https://letterboxd.com/film/".data, isPySpace c = false :=
    by decide
  have hPhash : ∀ c ∈ "https://letterboxd.com/film/".data, c ≠ '#' := by decide
  have hPsplit : "https://letterboxd.com/film/".data
      = "https://letterboxd.com/".data ++ "film/".data := by decide
  -- the canonical identifier itself
  have hcws : ∀ c ∈ "https://letterboxd.com/film/".data ++ s ++ ['/'],
      isPySpace c = false :=
    forall_mem_append_chars _ _ _
      (forall_mem_append_chars _ _ _ hPws hsws) (by decide)
  have hchash : ∀ c ∈ "https://letterboxd.com/film/".data ++ s ++ ['/'],
      c ≠ '#' :=
    forall_mem_append_chars _ _ _
      (forall_mem_append_chars _ _ _ hPhash hshash) (by decide)
  have hcend : ("https://letterboxd.com/film/".data ++ s ++ ['/']).getLast?
      = some '/' := List.getLast?_concat _
  have hcne : "https://letterboxd.com/film/".data ++ s ++ ['/'] ≠ [] := by
    simp
  have hnorm1 : normalize_letterboxd_url
      ("https://letterboxd.com/film/".data ++ s ++ ['/'])
      = "https://letterboxd.com/film/".data ++ s ++ ['/'] :=
    normalize_id _ hcne hcws hchash hcend
  have hsearch : searchFilm
      ("https://letterboxd.com/film/".data ++ s ++ ['/']) = some s := by
    apply searchFilm_pos0 _ _ hcne
    have hshape : "https://letterboxd.com/film/".data ++ s ++ ['/']
        = "https://letterboxd.com/".data
          ++ ("film/".data ++ (s ++ '/' :: [])) := by
      rw [hPsplit]
      simp [List.append_assoc]
    rw [hshape, matchFilmAt_std]
    exact matchAfterHost_plain s [] hs1 hsslash hsf
  refine ⟨?_, ?_, ?_, ?_, ?_⟩
  · simp only [canonicalize_letterboxd_film_url, hnorm1, hsearch]
  · have hne2 : "https://letterboxd.com/film/".data ++ s ≠ [] :=
      fun e => hs1 (List.append_eq_nil.mp e).2
    obtain ⟨c, hgl, hcm⟩ := getLast?_ne_none s hs1
    have hend2 : ("https://letterboxd.com/film/".data ++ s).getLast?
        ≠ some '/' := by
      rw [List.getLast?_append, hgl]
      intro h
      have hc7 : c = '/' := Option.some.inj h
      exact hsslash (hc7 ▸ hcm)
    have hnorm2 : normalize_letterboxd_url
        ("https://letterboxd.com/film/".data ++ s)
        = "https://letterboxd.com/film/".data ++ s ++ ['/'] :=
      normalize_add_slash _ hne2
        (forall_mem_append_chars _ _ _ hPws hsws)
        (forall_mem_append_chars _ _ _ hPhash hshash) hend2
    simp only [canonicalize_letterboxd_film_url, hnorm2, hsearch]
  · have huws2 : ∀ c ∈ "https://letterboxd.com/".data ++ u
        ++ "/film/".data ++ s ++ ['/'], isPySpace c = false :=
      forall_mem_append_chars _ _ _
        (forall_mem_append_chars _ _ _
          (forall_mem_append_chars _ _ _
            (forall_mem_append_chars _ _ _ (by decide) huws)
            (by decide)) hsws) (by decide)
    have huhash2 : ∀ c ∈ "https://letterboxd.com/".data ++ u
        ++ "/film/".data ++ s ++ ['/'], c ≠ '#' :=
      forall_mem_append_chars _ _ _
        (forall_mem_append_chars _ _ _
          (forall_mem_append_chars _ _ _
            (forall_mem_append_chars _ _ _ (by decide) huhash)
            (by decide)) hshash) (by decide)
    have huend : ("https://letterboxd.com/".data ++ u ++ "/film/".data
        ++ s ++ ['/']).getLast? = some '/' := List.getLast?_concat _
    have hune : "https://letterboxd.com/".data ++ u ++ "/film/".data
        ++ s ++ ['/'] ≠ [] := by simp
    have hnorm3 : normalize_letterboxd_url
        ("https://letterboxd.com/".data ++ u ++ "/film/".data ++ s ++ ['/'])
        = "https://letterboxd.com/".data ++ u ++ "/film/".data
          ++ s ++ ['/'] :=
      normalize_id _ hune huws2 huhash2 huend
    have hsearch3 : searchFilm ("https://letterboxd.com/".data ++ u
        ++ "/film/".data ++ s ++ ['/']) = some s := by
      apply searchFilm_pos0 _ _ hune
      have hshape3 : "https://letterboxd.com/".data ++ u ++ "/film/".data
          ++ s ++ ['/']
          = "https://letterboxd.com/".data
            ++ (u ++ '/' :: ("film/".data ++ (s ++ '/' :: []))) := by
        have e1 : "/film/".data = '/' :: "film/".data := by decide
        rw [e1]
        simp [List.append_assoc]
      rw [hshape3, matchFilmAt_std]
      exact matchAfterHost_user u s [] hu1 huslash hs1 hsslash
    simp only [canonicalize_letterboxd_film_url, hnorm3, hsearch3]
  · have hfws : ∀ c ∈ "https://letterboxd.com/film/".data ++ s ++ ['/']
        ++ '#' :: f, isPySpace c = false :=
      forall_mem_append_chars _ _ _ hcws
        (forall_mem_cons_chars _ _ _ (by decide) hf)
    have hnorm4 : normalize_letterboxd_url
        ("https://letterboxd.com/film/".data ++ s ++ ['/'] ++ '#' :: f)
        = "https://letterboxd.com/film/".data ++ s ++ ['/'] :=
      normalize_frag _ f hfws hchash hcend
    simp only [canonicalize_letterboxd_film_url, hnorm4, hsearch]
  · have hqws2 : ∀ c ∈ "https://letterboxd.com/film/".data ++ s ++ ['/']
        ++ '?' :: q, isPySpace c = false :=
      forall_mem_append_chars _ _ _ hcws
        (forall_mem_cons_chars _ _ _ (by decide) hqws)
    have hqhash2 : ∀ c ∈ "https://letterboxd.com/film/".data ++ s ++ ['/']
        ++ '?' :: q, c ≠ '#' :=
      forall_mem_append_chars _ _ _ hchash
        (forall_mem_cons_chars _ _ _ (by decide) hqhash)
    have hqne : "https://letterboxd.com/film/".data ++ s ++ ['/']
        ++ '?' :: q ≠ [] := by simp
    obtain ⟨c, hgl, hcm⟩ := getLast?_ne_none ('?' :: q) (by simp)
    have hqend : ("https://letterboxd.com/film/".data ++ s ++ ['/']
        ++ '?' :: q).getLast? ≠ some '/' := by
      rw [List.getLast?_append, hgl]
      intro h
      have hc7 : c = '/' := Option.some.inj h
      rcases List.mem_cons.mp hcm with h1 | h1
      · rw [hc7] at h1
        cases h1
      · exact hqslash (hc7 ▸ h1)
    have hnorm5 : normalize_letterboxd_url
        ("https://letterboxd.com/film/".data ++ s ++ ['/'] ++ '?' :: q)
        = "https://letterboxd.com/film/".data ++ s ++ ['/']
          ++ '?' :: q ++ ['/'] :=
      normalize_add_slash _ hqne hqws2 hqhash2 hqend
    have hsearch5 : searchFilm ("https://letterboxd.com/film/".data ++ s
        ++ ['/'] ++ '?' :: q ++ ['/']) = some s := by
      apply searchFilm_pos0 _ _ (by simp)
      have hshape5 : "https://letterboxd.com/film/".data ++ s ++ ['/']
          ++ '?' :: q ++ ['/']
          = "https://letterboxd.com/".data
            ++ ("film/".data ++ (s ++ '/' :: ('?' :: (q ++ ['/'])))) := by
        rw [hPsplit]
        simp [List.append_assoc]
      rw [hshape5, matchFilmAt_std]
      exact matchAfterHost_plain s ('?' :: (q ++ ['/'])) hs1 hsslash hsf
    simp only [canonicalize_letterboxd_film_url, hnorm5, hsearch5]

/-- C1 as stated is false: only the URL fragment is stripped, not the query
string, so a query attached directly to the slug (no slash in between) is
absorbed into the slug, and two raw inputs naming the same film produce two
different canonical identifiers. -/
theorem c1_counterexample_query_absorbed_into_slug :
    canonicalize_letterboxd_film_url
        "https://letterboxd.com/film/parasite-2019?x=1".data
      ≠ canonicalize_letterboxd_film_url
        "https://letterboxd.com/film/parasite-2019/".data := by decide

/-- Witness for the amended C1 at the spec's own example film: the
user-scoped form and a query-after-slash form collapse to the canonical
identifier. -/
theorem c1_amended_variants_collapse_witness :
    canonicalize_letterboxd_film_url
        ("https://letterboxd.com/".data ++ "kat".data ++ "/film/".data
          ++ "Parasite-2019".data ++ ['/'])
      = "https://letterboxd.com/film/".data ++ "Parasite-2019".data
        ++ ['/'] ∧
    canonicalize_letterboxd_film_url
        ("https://letterboxd.com/film/".data ++ "Parasite-2019".data
          ++ ['/'] ++ '?' :: "x=1".data)
      = "https://letterboxd.com/film/".data ++ "Parasite-2019".data
        ++ ['/'] :=
  ⟨(c1_amended_variants_collapse "Parasite-2019".data "kat".data []
      "x=1".data (by decide) (by decide) (by decide) (by decide) (by decide)
      (by decide) (by decide)).2.2.1,
   (c1_amended_variants_collapse "Parasite-2019".data "kat".data []
      "x=1".data (by decide) (by decide) (by decide) (by decide) (by decide)
      (by decide) (by decide)).2.2.2.2⟩

end Letterbddy

